import Mathlib

set_option maxRecDepth 8192

/-!
Verification of the job-evaluation pipeline (`jobs.py`).

The development shallowly embeds the core of the program:

* the per-listing evaluation loop of `scrape_and_filter_ai` together with the
  url-deduplication state built in `main` (`unique_urls = set(data["link"])`,
  `pd.concat([data, new_df])`);
* the retry wrapper `send_with_retries`;
* the crash-safe writer `write_excel_safely` (with `os.path.splitext`);
* the response parser `parse_json_response` (with models of `str.strip`,
  `str.lower`, the two regular expressions it uses, and `json.loads`);
* the prompt renderer `format_prompt` with the literal template
  `PERSONAL_JOB_FINDER_PROMPT`.

Python strings are modelled as `List Char`; machine-level concerns (floats,
unicode case folding beyond ASCII) are outside the model and are noted where
they are elided.
-/

namespace JobScraper

abbrev Str := List Char

/-! ## Evaluation pipeline (`scrape_and_filter_ai`, jobs.py lines 281-341)

A listing row as produced by the provider (`row.get(...)` lookups with empty
defaults are folded into total string fields). -/

structure Listing where
  job_url : String
  title : String
  description : String
  company : String
  date_posted : String
deriving DecidableEq, Repr

/-- One row of the result table, with the columns of `required_columns`. -/
structure Row where
  AI_recommendation : String
  company : String
  title : String
  link : String
  years_required : String
  description : String
  posted_date : String
deriving DecidableEq, Repr

/-- The `new_row` dictionary built at jobs.py lines 321-329. -/
def mkRow (l : Listing) (verdict years_required : String) : Row :=
  { AI_recommendation := verdict
    company := l.company
    title := l.title
    link := l.job_url
    years_required := years_required
    description := l.description
    posted_date := l.date_posted }

/-- Loop state of `scrape_and_filter_ai`: the accumulated dataframe `df`, the
`unique_urls` set (as a list, only membership is used), and — for observation
only — the list of urls for which the model was actually invoked (the body
reached the `send_with_retries` call). -/
structure PipeState where
  rows : List Row
  seen : List String
  invoked : List String
deriving DecidableEq, Repr

/-- The body of the `for index, row in ...` loop (jobs.py lines 303-335).
`ai l` models `parse_json_response(send_with_retries(assistant, msg))` for the
prompt built from `l`: `some (verdict, explanation, years_required)` on
success, `none` when a `BackendError` after retry exhaustion or a parse
failure is raised — the broad `except` at line 333 logs it and continues, so a
failing listing leaves `df` and `unique_urls` unchanged. -/
def processListing (ai : Listing → Option (String × String × String))
    (st : PipeState) (l : Listing) : PipeState :=
  if l.job_url ∈ st.seen then st
  else
    match ai l with
    | none => { st with invoked := st.invoked ++ [l.job_url] }
    | some (verdict, _explanation, years_required) =>
        { rows := st.rows ++ [mkRow l verdict years_required]
          seen := st.seen ++ [l.job_url]
          invoked := st.invoked ++ [l.job_url] }

/-- `scrape_and_filter_ai` on one fetched batch (the reference loop breaks
unconditionally after the first batch, jobs.py line 339). -/
def scrape_and_filter_ai (ai : Listing → Option (String × String × String))
    (unique_urls : List String) (batch : List Listing) : PipeState :=
  batch.foldl (processListing ai) ⟨[], unique_urls, []⟩

/-- `main`'s use of the pipeline: `unique_urls = set(data["link"])`, then
`df = pd.concat([data, new_df])` (jobs.py lines 346-347 and 361-362). -/
def runPipeline (ai : Listing → Option (String × String × String))
    (data : List Row) (batch : List Listing) : List Row :=
  data ++ (scrape_and_filter_ai ai (data.map Row.link) batch).rows

/-! ## Retry wrapper (`send_with_retries`, jobs.py lines 267-276)

The backend (`assistant.submit_message`) is modelled as a deterministic
oracle from the attempt number to either a response or an error message
(`Exception` text). `time.sleep` is modelled as an event; delays are exact
rationals rather than floats. -/

/-- Observable events of one `send_with_retries` run: a backend call with its
attempt number, or a `time.sleep(backoff_sec * attempt)`. -/
inductive RetryEv where
  | call (attempt : Nat)
  | sleep (dur : ℚ)
deriving DecidableEq, Repr

/-- Outcome of `send_with_retries`: a returned response, a re-raised last
error, or — when `tries = 0`, so the loop body never ran — the `TypeError`
produced by `raise None` at jobs.py line 276. -/
inductive RetryOutcome where
  | ok (response : String)
  | raised (msg : String)
  | typeErrorRaiseNone
deriving DecidableEq, Repr

/-- Boolean test used in hypotheses: does the oracle fail on this attempt? -/
def isErrB (r : Except String String) : Bool :=
  match r with
  | .error _ => true
  | .ok _ => false

/-- The message of a failing oracle result (and `""` on success). -/
def errMsgOf (r : Except String String) : String :=
  match r with
  | .error e => e
  | .ok _ => ""

/-- The `for attempt in range(1, tries + 1)` loop over the remaining attempt
numbers, carrying `last_err`.  On success it returns at once; on failure it
logs, sleeps `backoff_sec * attempt` and continues; after the loop it raises
`last_err`. -/
def retryLoop (oracle : Nat → Except String String) (backoff_sec : ℚ) :
    List Nat → Option String → List RetryEv × RetryOutcome
  | [], none => ([], .typeErrorRaiseNone)
  | [], some e => ([], .raised e)
  | a :: rest, _lastErr =>
      match oracle a with
      | .ok r => ([.call a], .ok r)
      | .error e =>
          let t := retryLoop oracle backoff_sec rest (some e)
          (.call a :: .sleep (backoff_sec * (a : ℚ)) :: t.1, t.2)

/-- `send_with_retries(assistant, msg, tries, backoff_sec)`; the attempt
numbers are `1, …, tries` as produced by `range(1, tries + 1)`. -/
def send_with_retries (oracle : Nat → Except String String) (tries : Nat)
    (backoff_sec : ℚ) : List RetryEv × RetryOutcome :=
  retryLoop oracle backoff_sec (List.range' 1 tries) none

/-- Number of backend calls in an event trace. -/
def countCalls (evs : List RetryEv) : Nat :=
  evs.countP (fun e => match e with | .call _ => true | _ => false)

/-- Number of sleeps in an event trace. -/
def countSleeps (evs : List RetryEv) : Nat :=
  evs.countP (fun e => match e with | .sleep _ => true | _ => false)

/-- The event trace of a run whose listed attempts all fail. -/
def failTrace (backoff_sec : ℚ) (attempts : List Nat) : List RetryEv :=
  attempts.flatMap (fun a => [.call a, .sleep (backoff_sec * (a : ℚ))])

/-! ## Response parser (`parse_json_response`, jobs.py lines 143-173)

Python `str` is modelled as `List Char` (`Str`).  The helpers below model the
Python string methods and the two regular expressions the parser uses, over
ASCII; unicode whitespace and unicode case folding are outside the model. -/

/-- The backtick character (``` ` ```). -/
def btChar : Char := Char.ofNat 96

/-- The opening-brace character. -/
def lbraceChar : Char := Char.ofNat 123

/-- The closing-brace character. -/
def rbraceChar : Char := Char.ofNat 125

/-- The single-quote character. -/
def squoteChar : Char := Char.ofNat 39

/-- ASCII whitespace, as in Python's `str.strip()` and the regex class `\s`
(space, tab, newline, carriage return, vertical tab, form feed). -/
def pyWsChar (c : Char) : Bool :=
  c = ' ' || c = '\t' || c = '\n' || c = '\r'
    || c = Char.ofNat 11 || c = Char.ofNat 12

/-- Python `str.strip()`: remove leading and trailing whitespace. -/
def pyStrip (s : Str) : Str :=
  ((s.dropWhile pyWsChar).reverse.dropWhile pyWsChar).reverse

/-- Python `str.lower()` on one ASCII character. -/
def pyLowerChar (c : Char) : Char :=
  if 'A' ≤ c ∧ c ≤ 'Z' then Char.ofNat (c.toNat + 32) else c

/-- Python `str.lower()` (ASCII). -/
def pyLower (s : Str) : Str := s.map pyLowerChar

mutual

/-- JSON values as decoded by `json.loads`.  Integer number literals are
modelled; float literals are outside the model (nothing in the program relies
on them).  Arrays and objects carry their own spine types so that all
recursions stay structural. -/
inductive Json where
  | null
  | bool (b : Bool)
  | num (n : Int)
  | str (s : Str)
  | arr (elems : JsonList)
  | obj (members : JsonMembers)

/-- Spine of a JSON array. -/
inductive JsonList where
  | nil
  | cons (head : Json) (tail : JsonList)

/-- Spine of a JSON object: ordered key/value members (duplicates kept). -/
inductive JsonMembers where
  | nil
  | cons (key : Str) (value : Json) (tail : JsonMembers)

end

/-- Build an array spine from a list. -/
def JsonList.ofList : List Json → JsonList
  | [] => .nil
  | x :: xs => .cons x (JsonList.ofList xs)

/-- Build an object spine from a list of members. -/
def JsonMembers.ofList : List (Str × Json) → JsonMembers
  | [] => .nil
  | (k, v) :: kvs => .cons k v (JsonMembers.ofList kvs)

/-- The members of an object spine as a list. -/
def JsonMembers.toList : JsonMembers → List (Str × Json)
  | .nil => []
  | .cons k v kvs => (k, v) :: JsonMembers.toList kvs

/-- JSON insignificant whitespace (as accepted by `json.loads`). -/
def jsonWsChar (c : Char) : Bool :=
  c = ' ' || c = '\t' || c = '\n' || c = '\r'

/-- Skip JSON whitespace. -/
def skipJsonWs (s : Str) : Str := s.dropWhile jsonWsChar

/-- Value of one hexadecimal digit. -/
def hexDigitVal (c : Char) : Option Nat :=
  if '0' ≤ c ∧ c ≤ '9' then some (c.toNat - 48)
  else if 'a' ≤ c ∧ c ≤ 'f' then some (c.toNat - 87)
  else if 'A' ≤ c ∧ c ≤ 'F' then some (c.toNat - 55)
  else none

/-- Four hex digits of a `\uXXXX` escape. -/
def parseHex4 (cs : Str) : Option (Nat × Str) :=
  match cs with
  | a :: b :: c :: d :: rest =>
      match hexDigitVal a, hexDigitVal b, hexDigitVal c, hexDigitVal d with
      | some va, some vb, some vc, some vd =>
          some (((va * 16 + vb) * 16 + vc) * 16 + vd, rest)
      | _, _, _, _ => none
  | _ => none

/-- JSON string body after the opening quote, in strict mode (raw control
characters are rejected).  Surrogate-pair recombination of `\u` escapes is
outside the model. -/
def parseJsonString : Nat → Str → Str → Option (Str × Str)
  | 0, _, _ => none
  | _, _, [] => none
  | f + 1, acc, c :: rest =>
      if c = '"' then some (acc.reverse, rest)
      else if c = '\\' then
        match rest with
        | [] => none
        | e :: rest2 =>
            if e = '"' then parseJsonString f ('"' :: acc) rest2
            else if e = '\\' then parseJsonString f ('\\' :: acc) rest2
            else if e = '/' then parseJsonString f ('/' :: acc) rest2
            else if e = 'b' then parseJsonString f (Char.ofNat 8 :: acc) rest2
            else if e = 'f' then parseJsonString f (Char.ofNat 12 :: acc) rest2
            else if e = 'n' then parseJsonString f ('\n' :: acc) rest2
            else if e = 'r' then parseJsonString f ('\r' :: acc) rest2
            else if e = 't' then parseJsonString f ('\t' :: acc) rest2
            else if e = 'u' then
              match parseHex4 rest2 with
              | some (n, rest3) => parseJsonString f (Char.ofNat n :: acc) rest3
              | none => none
            else none
      else if c.toNat < 32 then none
      else parseJsonString f (c :: acc) rest

/-- Is this an ASCII digit? -/
def isDigitB (c : Char) : Bool := '0' ≤ c && c ≤ '9'

/-- Numeric value of a digit string. -/
def digitsToNat (ds : Str) : Nat := ds.foldl (fun a c => a * 10 + (c.toNat - 48)) 0

/-- A JSON number literal (integer grammar `-?(0|[1-9][0-9]*)`; a following
`.`/`e`/`E` would start a float literal, which the model rejects). -/
def parseJsonNumber (cs : Str) : Option (Int × Str) :=
  match cs with
  | [] => none
  | c0 :: cs0 =>
      let neg : Bool := c0 = '-'
      let cs1 := if neg then cs0 else cs
      match cs1 with
      | [] => none
      | c :: r =>
          if isDigitB c then
            let ds_rest := if c = '0' then (([c] : Str), r) else cs1.span isDigitB
            match ds_rest.2 with
            | t :: _ =>
                if t = '.' ∨ t = 'e' ∨ t = 'E' then none
                else some ((if neg then -(digitsToNat ds_rest.1 : Int)
                    else (digitsToNat ds_rest.1 : Int)), ds_rest.2)
            | [] => some ((if neg then -(digitsToNat ds_rest.1 : Int)
                else (digitsToNat ds_rest.1 : Int)), ds_rest.2)
          else none

mutual

/-- A JSON value (fuelled recursive-descent model of `json.loads`'s scanner). -/
def parseJsonValue : Nat → Str → Option (Json × Str)
  | 0, _ => none
  | f + 1, cs =>
      match skipJsonWs cs with
      | [] => none
      | c :: rest =>
          if c = lbraceChar then
            match skipJsonWs rest with
            | d :: rest2 =>
                if d = rbraceChar then some (.obj .nil, rest2)
                else parseJsonMembers f [] (skipJsonWs rest)
            | [] => none
          else if c = '[' then
            match skipJsonWs rest with
            | d :: rest2 =>
                if d = ']' then some (.arr .nil, rest2)
                else parseJsonElems f [] (skipJsonWs rest)
            | [] => none
          else if c = '"' then
            match parseJsonString (rest.length + 1) [] rest with
            | some (s, r) => some (.str s, r)
            | none => none
          else if c = 't' then
            if rest.take 3 = "rue".data then some (.bool true, rest.drop 3) else none
          else if c = 'f' then
            if rest.take 4 = "alse".data then some (.bool false, rest.drop 4) else none
          else if c = 'n' then
            if rest.take 3 = "ull".data then some (.null, rest.drop 3) else none
          else
            match parseJsonNumber (c :: rest) with
            | some (n, r) => some (.num n, r)
            | none => none

/-- Members of a JSON object, positioned at the key's opening quote.
Duplicate keys are kept in order; lookups take the last binding, as a Python
dict built by `json.loads` does. -/
def parseJsonMembers : Nat → List (Str × Json) → Str → Option (Json × Str)
  | 0, _, _ => none
  | f + 1, acc, cs =>
      match cs with
      | c :: rest =>
          if c = '"' then
            match parseJsonString (rest.length + 1) [] rest with
            | some (k, r1) =>
                match skipJsonWs r1 with
                | d :: r2 =>
                    if d = ':' then
                      match parseJsonValue f r2 with
                      | some (v, r3) =>
                          match skipJsonWs r3 with
                          | e :: r4 =>
                              if e = ',' then
                                parseJsonMembers f (acc ++ [(k, v)]) (skipJsonWs r4)
                              else if e = rbraceChar then
                                some (.obj (JsonMembers.ofList (acc ++ [(k, v)])), r4)
                              else none
                          | [] => none
                      | none => none
                    else none
                | [] => none
            | none => none
          else none
      | [] => none

/-- Elements of a JSON array, positioned at the first character of a value. -/
def parseJsonElems : Nat → List Json → Str → Option (Json × Str)
  | 0, _, _ => none
  | f + 1, acc, cs =>
      match parseJsonValue f cs with
      | some (v, r1) =>
          match skipJsonWs r1 with
          | e :: r2 =>
              if e = ',' then parseJsonElems f (acc ++ [v]) (skipJsonWs r2)
              else if e = ']' then some (.arr (JsonList.ofList (acc ++ [v])), r2)
              else none
          | [] => none
      | none => none

end

/-- `json.loads`: parse one value and require only whitespace after it. -/
def jsonLoads (cs : Str) : Option Json :=
  match parseJsonValue (4 * cs.length + 16) cs with
  | some (v, rest) => if skipJsonWs rest = [] then some v else none
  | none => none

/-- Lookup in a decoded object: the last binding of the key wins (a Python
dict built by `json.loads` keeps the last duplicate). -/
def dictFind (kvs : JsonMembers) (k : Str) : Option Json :=
  (kvs.toList.reverse.find? (fun kv => decide (kv.1 = k))).map (fun kv => kv.2)

/-- Python `dict.get(k, default)`. -/
def dictGet (kvs : JsonMembers) (k : Str) (d : Json) : Json :=
  (dictFind kvs k).getD d

mutual

/-- Python `str()` of a decoded JSON value: strings pass through, numbers and
the constants print as in Python, and containers print as their Python
`repr`. -/
def pyStr : Json → Str
  | .null => "None".data
  | .bool true => "True".data
  | .bool false => "False".data
  | .num n => (toString n).data
  | .str s => s
  | .arr xs => '[' :: pyReprList xs ++ [']']
  | .obj kvs => lbraceChar :: pyReprMembers kvs ++ [rbraceChar]

/-- Python `repr()` of a decoded JSON value (the string-escaping subtleties
of `repr` — quote choice and escapes — are elided: strings are wrapped in
single quotes). -/
def pyRepr : Json → Str
  | .str s => squoteChar :: s ++ [squoteChar]
  | .null => "None".data
  | .bool true => "True".data
  | .bool false => "False".data
  | .num n => (toString n).data
  | .arr xs => '[' :: pyReprList xs ++ [']']
  | .obj kvs => lbraceChar :: pyReprMembers kvs ++ [rbraceChar]

/-- Comma-joined `repr`s of array elements. -/
def pyReprList : JsonList → Str
  | .nil => []
  | .cons x .nil => pyRepr x
  | .cons x xs => pyRepr x ++ ", ".data ++ pyReprList xs

/-- Comma-joined `key: value` `repr`s of object members (keys are strings, so
their `repr` is the single-quoted key). -/
def pyReprMembers : JsonMembers → Str
  | .nil => []
  | .cons k v .nil => squoteChar :: k ++ [squoteChar] ++ ": ".data ++ pyRepr v
  | .cons k v kvs =>
      squoteChar :: k ++ [squoteChar] ++ ": ".data ++ pyRepr v
        ++ ", ".data ++ pyReprMembers kvs

end

/-- The regex substitution `re.sub(r",\s*([}\]])", r"\1", txt)` (fuelled
left-to-right scan; scanning resumes after each replaced match). -/
def removeTrailingCommas : Nat → Str → Str
  | 0, s => s
  | _, [] => []
  | f + 1, c :: rest =>
      if c = ',' then
        match rest.dropWhile pyWsChar with
        | d :: rest2 =>
            if d = rbraceChar ∨ d = ']' then d :: removeTrailingCommas f rest2
            else c :: removeTrailingCommas f rest
        | [] => c :: removeTrailingCommas f rest
      else c :: removeTrailingCommas f rest

/-- First index (if any) at which three consecutive backticks start. -/
def findTripleIdx : Str → Option Nat
  | [] => none
  | c :: cs =>
      if c = btChar ∧ cs.take 2 = [btChar, btChar] then some 0
      else (findTripleIdx cs).map (fun i => i + 1)

/-- The capture of `re.search(r"```(?:json)?\s*([\s\S]*?)\s*```", txt,
re.IGNORECASE)` for `txt` beginning with three backticks: the leftmost match
starts at the opening fence; the greedy optional tag consumes a
case-insensitive `json`; the non-greedy group then reaches to the next
closing fence.  The group's surrounding `\s*` trimming is folded into the
caller's `.strip()` (the composition is identical).  `none` when there is no
closing fence, in which case `re.search` finds no match anywhere and the text
is left unchanged. -/
def fenceInner (txt : Str) : Option Str :=
  let afterOpen := txt.drop 3
  let body := if pyLower (afterOpen.take 4) = "json".data
    then afterOpen.drop 4 else afterOpen
  match findTripleIdx body with
  | some j => some (body.take j)
  | none => none

/-- Lines 150-159 of `parse_json_response`: strip the text, extract a fenced
block if the text starts with one, remove trailing commas before a closing
brace or bracket. -/
def preprocess (response_text : Str) : Str :=
  let txt := pyStrip response_text
  let txt1 :=
    if txt.take 3 = [btChar, btChar, btChar] then
      match fenceInner txt with
      | some inner => pyStrip inner
      | none => txt
    else txt
  removeTrailingCommas txt1.length txt1

/-- Exceptions escaping `parse_json_response` (logged and re-raised at
line 173): a `json.JSONDecodeError`, the `AttributeError` of calling `.get`
on a non-dict, or the `ValueError` raised for an invalid verdict. -/
inductive PyExc where
  | jsonDecodeError
  | attributeError
  | valueError (msg : Str)
deriving DecidableEq, Repr

/-- The verdict whitelist of jobs.py line 166. -/
def allowedVerdicts : List Str :=
  ["yes".data, "no".data, "maybe".data, "maybe+".data]

/-- Lines 161-169 of `parse_json_response`, applied to the result of
`json.loads`: normalize the verdict (`str(...).lower().strip()`), default a
missing `years_required` to `"unspecified"`, validate the verdict, and return
`(verdict, "", years_required)`. -/
def interpretParsed (p : Option Json) : Except PyExc (Str × Str × Str) :=
  match p with
  | none => .error .jsonDecodeError
  | some (.obj kvs) =>
      let verdict := pyStrip (pyLower (pyStr (dictGet kvs "verdict".data (.str []))))
      let years_required :=
        pyStrip (pyStr (dictGet kvs "years_required".data (.str "unspecified".data)))
      if verdict ∈ allowedVerdicts then .ok (verdict, [], years_required)
      else .error (.valueError ("Invalid verdict: ".data ++ verdict))
  | some _ => .error .attributeError

/-- `parse_json_response(response_text)` (jobs.py lines 143-173). -/
def parse_json_response (response_text : Str) : Except PyExc (Str × Str × Str) :=
  interpretParsed (jsonLoads (preprocess response_text))

/-! ## Prompt rendering (`format_prompt`, jobs.py lines 116-124, and
`PERSONAL_JOB_FINDER_PROMPT`, lines 35-93) -/

/-- `str.replace(pat, rep)` scanning core: leftmost, non-overlapping matches;
the inserted replacement is not rescanned.  Fuelled by one unit per consumed
character, so fuel `s.length` always suffices. -/
def pyReplaceGo (pat rep : Str) : Nat → Str → Str
  | 0, s => s
  | _, [] => []
  | f + 1, c :: cs =>
      if pat.isPrefixOf (c :: cs) then
        rep ++ pyReplaceGo pat rep f (cs.drop (pat.length - 1))
      else c :: pyReplaceGo pat rep f cs

/-- Python `str.replace(pat, rep)` (an empty pattern inserts the replacement
before every character and at the end, as Python does). -/
def pyReplace (s pat rep : Str) : Str :=
  match pat with
  | [] => rep ++ s.flatMap (fun c => c :: rep)
  | _ :: _ => pyReplaceGo pat rep s.length s

/-- Line 121: `template.replace("\x7b", "\x7b\x7b").replace("\x7d", "\x7d\x7d")`. -/
def escapeBraces (s : Str) : Str :=
  pyReplace (pyReplace s [lbraceChar] [lbraceChar, lbraceChar])
    [rbraceChar] [rbraceChar, rbraceChar]

/-- `format_prompt(template, **kwargs)` (jobs.py lines 116-124): escape all
braces, then replace each `\x7b\x7bk\x7d\x7d` by `str(v)` in keyword order. -/
def format_prompt (template : Str) (kwargs : List (Str × Str)) : Str :=
  kwargs.foldl
    (fun acc kv =>
      pyReplace acc (lbraceChar :: lbraceChar :: kv.1 ++ [rbraceChar, rbraceChar]) kv.2)
    (escapeBraces template)

/-- Does `needle` occur as a contiguous substring of the argument? -/
def hasInfix (needle : Str) : Str → Bool
  | [] => decide (needle = [])
  | c :: cs => needle.isPrefixOf (c :: cs) || hasInfix needle cs

/-- Analysis helper: the pattern provably fails against `s` using only the
characters of `s` (so it also fails against `s` extended by any suffix). -/
def headMismatch : Str → Str → Bool
  | [], _ => false
  | _ :: _, [] => false
  | p :: pt, c :: cs => decide (p ≠ c) || headMismatch pt cs

/-- Analysis helper: at no position of `s` can the pattern start a match,
whatever text follows `s`. -/
def cleanFor (pat : Str) : Str → Bool
  | [] => true
  | c :: cs => headMismatch pat (c :: cs) && cleanFor pat cs

/-- Literal text of `PERSONAL_JOB_FINDER_PROMPT` before `\x7btitle\x7d`. -/
def promptSeg1 : String :=
  "\nYou are my Personal IT Job Finder & Evaluator.\n\nINPUTS\n- JOB:\n  - title: "

/-- Literal text between `\x7btitle\x7d` and `\x7bdescription\x7d`. -/
def promptSeg2 : String :=
  "\n  - description: "

/-- Literal text between `\x7bdescription\x7d` and `\x7bresume_text\x7d`. -/
def promptSeg3 : String :=
  "\n\n- RESUME:\n"

/-- First brace-free chunk of the text after `\x7bresume_text\x7d`. -/
def promptSeg4a : String :=
  "\n\nGOAL\nEvaluate whether I should apply to this job by analyzing both the job description and my resume.\n"
    ++ "You must consider:\n1. Technical relevance (same tech stack or domain)\n"
    ++ "2. Required years of experience vs my experience (assume I have 2 years)\n3. The role level (junior / mid / senior)\n"
    ++ "4. The overall alignment between job requirements and my background.\n\n"
    ++ "-----------------------------------------------------\nEVALUATION LOGIC\n"
    ++ "-----------------------------------------------------\n\n1️⃣ FIELD FILTER:\n"
    ++ "   - ✅ Accept jobs only if they clearly belong to Information Technology, Software Development, Data, Cloud, AI/ML, DevOps, Cybersecurity, or related technical domains.\n"

/-- Second brace-free chunk of the text after `\x7bresume_text\x7d`. -/
def promptSeg4b : String :=
  "   - 🚫 Reject jobs in Business, Marketing, Finance, HR, Sales, Consulting, or Operations unless they have a strong software/technical component.\n"
    ++ "\n2️⃣ EXPERIENCE CHECK:\n   - Extract the required years of experience from the job description.\n"
    ++ "   - Compare it with my experience (2 years).\n   - If the job asks for:\n       - ≤ 2 years → treat as GOOD MATCH.\n"
    ++ "       - 3–4 years → MAYBE (stretch but possible if skills match strongly).\n       - > 4 years → NO (too senior).\n"
    ++ "       - Not mentioned → neutral, base verdict on technical skills.\n\n3️⃣ TECHNOLOGY & SKILLS MATCH:\n"
    ++ "   - Identify major technologies, frameworks, or tools from the JD.\n"

/-- Third brace-free chunk, up to the opening brace of the JSON output example. -/
def promptSeg4c : String :=
  "   - Match them with my resume’s stack (React, Node.js, AWS, Python, SQL, Kubernetes, Docker, Terraform, LangChain, ML/AI, etc.).\n"
    ++ "   - If ≥70% of them appear in my resume → strong technical match.\n   - If 40–69% → partial match.\n"
    ++ "   - If <40% → poor match.\n\n4️⃣ FINAL DECISION MATRIX:\n"
    ++ "   - Strong technical match + good/neutral experience → verdict = \"yes\"\n"
    ++ "   - Partial technical match OR slightly higher experience (4–5 yrs) → verdict = \"maybe\"\n"
    ++ "   - Non-technical OR experience gap >2 years OR different domain → verdict = \"no\"\n\n"
    ++ "-----------------------------------------------------\nOUTPUT FORMAT (STRICT)\n"
    ++ "-----------------------------------------------------\n"
    ++ "Return ONLY a valid JSON object with **no extra text or explanation**, no backticks.\n\n"

/-- Interior of the JSON output example, between its braces. -/
def promptSeg4Mid : String :=
  "\n  \"verdict\": \"<yes|no|maybe>\",\n  \"years_required\": \"<number or \x27unspecified\x27>\",\n"
    ++ "  \"reasoning\": \"<very short one-line reason>\"\n"

/-- Literal text after `\x7bresume_text\x7d`: three brace-free chunks, then
the JSON output example `\x7b…\x7d` and a final newline. -/
def promptSeg4 : String :=
  promptSeg4a ++ promptSeg4b ++ promptSeg4c
    ++ "\x7b" ++ promptSeg4Mid ++ "\x7d" ++ "\n"

/-- The template `PERSONAL_JOB_FINDER_PROMPT` (jobs.py lines 35-93), as its
literal segments around the three placeholders. -/
def PERSONAL_JOB_FINDER_PROMPT : Str :=
  promptSeg1.data ++ "\x7btitle\x7d".data ++ promptSeg2.data
    ++ "\x7bdescription\x7d".data ++ promptSeg3.data
    ++ "\x7bresume_text\x7d".data ++ promptSeg4.data

/-- The brace-escaped JSON output example at the end of the template. -/
def jsonBlockEsc : Str :=
  lbraceChar :: lbraceChar
    :: (promptSeg4Mid.data ++ [rbraceChar, rbraceChar, '\n'])

/-! ## Result store (`write_excel_safely`, jobs.py lines 244-264)

The filesystem is a partial map from paths to written tables; whether a
destination is exclusively locked (raising `PermissionError` on write) is an
arbitrary predicate. `beautify_excel` only restyles the saved workbook and is
content-preserving, so it is not modelled separately. -/

/-- Model of the filesystem: the table last written at each path. -/
def FileSys : Type := String → Option (List Row)

/-- Writing a table at a path. -/
def fsWrite (fs : FileSys) (p : String) (t : List Row) : FileSys :=
  fun q => if q = p then some t else fs q

/-- `os.path.rfind`-style search: index of the last occurrence of `c`. -/
def rfindIdx (cs : List Char) (c : Char) : Option Nat :=
  match cs with
  | [] => none
  | x :: xs =>
      match rfindIdx xs c with
      | some i => some (i + 1)
      | none => if x = c then some 0 else none

/-- `p.rfind('/')` as used by `_splitext`: `-1` when there is no separator. -/
def sepIndexInt (p : String) : Int :=
  match rfindIdx p.data '/' with
  | some i => (i : Int)
  | none => -1

/-- `os.path.splitext` (POSIX `genericpath._splitext` with `sep = '/'`,
`extsep = '.'`): split at the last dot, unless every character of the base
name before it is a dot. -/
def splitext (p : String) : String × String :=
  match rfindIdx p.data '.' with
  | none => (p, "")
  | some dotIndex =>
      if sepIndexInt p < (dotIndex : Int) then
        if ((p.data.drop (sepIndexInt p + 1).toNat).take
            (dotIndex - (sepIndexInt p + 1).toNat)).any (fun c => c ≠ '.') then
          (⟨p.data.take dotIndex⟩, ⟨p.data.drop dotIndex⟩)
        else (p, "")
      else (p, "")

/-- The fallback path `f"{base}_{date.today().isoformat()}{ext}"` of
jobs.py line 256. -/
def fallbackPath (path today : String) : String :=
  (splitext path).1 ++ "_" ++ today ++ (splitext path).2

/-- `write_excel_safely(df, path)`.  `locked` tells which destinations raise
`PermissionError`; `today` is `date.today().isoformat()`.  The fallback write
at line 262 is outside the `try`, so a locked fallback re-raises
(`Except.error ()`). -/
def write_excel_safely (locked : String → Bool) (today : String)
    (df : List Row) (fs : FileSys) (path : String) :
    Except Unit (FileSys × String) :=
  if locked path then
    let fallback := fallbackPath path today
    if locked fallback then .error ()
    else .ok (fsWrite fs fallback df, fallback)
  else .ok (fsWrite fs path df, path)

/-! ### Fixtures for witnesses -/

/-- A sample listing (the end-to-end scenario of the spec, section 8). -/
def sampleListing1 : Listing :=
  ⟨"u1", "Backend Engineer", "3 years Python, AWS", "Acme", "2025-01-01"⟩

/-- A second sample listing with a distinct url. -/
def sampleListing2 : Listing := ⟨"u2", "Data Analyst", "SQL", "Beta", "2025-01-02"⟩

/-- A deterministic evaluation oracle: succeeds on `sampleListing1`'s url,
fails (models retry exhaustion / parse failure) elsewhere. -/
def aiSample : Listing → Option (String × String × String) :=
  fun l => if l.job_url = "u1" then some ("yes", "", "3") else none

/-- An evaluation oracle that always fails. -/
def aiNever : Listing → Option (String × String × String) := fun _ => none

/-- A backend oracle that fails on attempt 1 and succeeds on attempt 2. -/
def oracleSecond : Nat → Except String String :=
  fun a => if a = 2 then .ok "pong" else .error ("boom " ++ toString a)

/-- A backend oracle that always fails. -/
def oracleNever : Nat → Except String String :=
  fun a => .error ("down " ++ toString a)

/-- A sample result row. -/
def sampleRow : Row :=
  ⟨"yes", "Acme", "Backend Engineer", "u1", "3", "3 years Python, AWS", "2025-01-01"⟩

/-- A lock predicate under which only `jobs.xlsx` is locked. -/
def lockedJobs : String → Bool := fun p => p == "jobs.xlsx"

/-- The empty filesystem. -/
def fsEmpty : FileSys := fun _ => none

/-! ### Pipeline lemmas -/

/-- Step lemma: an already-seen url is skipped (`continue`, jobs.py line 307). -/
theorem processListing_skip (ai : Listing → Option (String × String × String))
    (st : PipeState) (l : Listing) (h : l.job_url ∈ st.seen) :
    processListing ai st l = st := by
  unfold processListing; simp [h]

/-- Step lemma: a failed evaluation only records the invocation. -/
theorem processListing_fail (ai : Listing → Option (String × String × String))
    (st : PipeState) (l : Listing) (h : l.job_url ∉ st.seen) (hai : ai l = none) :
    processListing ai st l = { st with invoked := st.invoked ++ [l.job_url] } := by
  unfold processListing; simp [h, hai]

/-- Step lemma: a successful evaluation appends the row and marks the url. -/
theorem processListing_ok (ai : Listing → Option (String × String × String))
    (st : PipeState) (l : Listing) (v : String × String × String)
    (h : l.job_url ∉ st.seen) (hai : ai l = some v) :
    processListing ai st l =
      { rows := st.rows ++ [mkRow l v.1 v.2.2]
        seen := st.seen ++ [l.job_url]
        invoked := st.invoked ++ [l.job_url] } := by
  unfold processListing; simp [h, hai]

/-- `processListing` never reads the invocation log: its `rows` and `seen`
components depend only on the `rows` and `seen` of the input state. -/
theorem processListing_proj (ai : Listing → Option (String × String × String))
    (l : Listing) (r : List Row) (s : List String) (g g' : List String) :
    ((processListing ai ⟨r, s, g⟩ l).rows = (processListing ai ⟨r, s, g'⟩ l).rows)
    ∧ ((processListing ai ⟨r, s, g⟩ l).seen = (processListing ai ⟨r, s, g'⟩ l).seen) := by
  unfold processListing
  by_cases h : l.job_url ∈ s
  · simp [h]
  · cases hai : ai l with
    | none => simp [h, hai]
    | some v => simp [h, hai]

/-- Rows and seen-set of the loop do not depend on the initial invocation log. -/
theorem foldl_invokedIrrel (ai : Listing → Option (String × String × String)) :
    ∀ (b : List Listing) (r : List Row) (s : List String) (g g' : List String),
    ((b.foldl (processListing ai) ⟨r, s, g⟩).rows
        = (b.foldl (processListing ai) ⟨r, s, g'⟩).rows)
    ∧ ((b.foldl (processListing ai) ⟨r, s, g⟩).seen
        = (b.foldl (processListing ai) ⟨r, s, g'⟩).seen) := by
  intro b
  induction b with
  | nil => intro r s g g'; exact ⟨rfl, rfl⟩
  | cons l b ih =>
      intro r s g g'
      simp only [List.foldl_cons]
      unfold processListing
      by_cases h : l.job_url ∈ s
      · simp only [if_pos h]; exact ih r s g g'
      · simp only [if_neg h]
        cases hai : ai l with
        | none => exact ih r s (g ++ [l.job_url]) (g' ++ [l.job_url])
        | some v => exact ih _ _ (g ++ [l.job_url]) (g' ++ [l.job_url])

/-- Each loop step appends the produced rows at the end and their urls to the
seen set: the final state extends the initial one by some batch `Δ` of new
rows, whose links are exactly the urls added to `seen`. -/
theorem foldl_delta (ai : Listing → Option (String × String × String)) :
    ∀ (b : List Listing) (st : PipeState),
    ∃ Δ : List Row,
      (b.foldl (processListing ai) st).rows = st.rows ++ Δ
      ∧ (b.foldl (processListing ai) st).seen = st.seen ++ Δ.map Row.link := by
  intro b
  induction b with
  | nil => intro st; exact ⟨[], by simp, by simp⟩
  | cons l b ih =>
      intro st
      simp only [List.foldl_cons]
      by_cases h : l.job_url ∈ st.seen
      · rw [processListing_skip ai st l h]; exact ih st
      · cases hai : ai l with
        | none =>
            rw [processListing_fail ai st l h hai]
            simpa using ih { st with invoked := st.invoked ++ [l.job_url] }
        | some v =>
            rw [processListing_ok ai st l v h hai]
            obtain ⟨Δ, hr, hs⟩ :=
              ih ⟨st.rows ++ [mkRow l v.1 v.2.2], st.seen ++ [l.job_url],
                st.invoked ++ [l.job_url]⟩
            exact ⟨mkRow l v.1 v.2.2 :: Δ, by rw [hr]; simp,
              by rw [hs]; simp [mkRow]⟩

/-- Urls present in the seen set at the start remain present at the end. -/
theorem foldl_seen_mono (ai : Listing → Option (String × String × String))
    (b : List Listing) (st : PipeState) {u : String} (hu : u ∈ st.seen) :
    u ∈ (b.foldl (processListing ai) st).seen := by
  obtain ⟨Δ, _, hs⟩ := foldl_delta ai b st
  rw [hs]; exact List.mem_append_left _ hu

/-- If every listing of the batch is either already seen or fails evaluation,
the loop changes neither the rows nor the seen set. -/
theorem foldl_skipAll (ai : Listing → Option (String × String × String)) :
    ∀ (b : List Listing) (st : PipeState),
    (∀ l ∈ b, l.job_url ∈ st.seen ∨ ai l = none) →
    (b.foldl (processListing ai) st).rows = st.rows
    ∧ (b.foldl (processListing ai) st).seen = st.seen := by
  intro b
  induction b with
  | nil => intro st _; exact ⟨rfl, rfl⟩
  | cons l b ih =>
      intro st hall
      simp only [List.foldl_cons]
      have hst : processListing ai st l = st
          ∨ processListing ai st l = { st with invoked := st.invoked ++ [l.job_url] } := by
        by_cases hseen : l.job_url ∈ st.seen
        · exact Or.inl (processListing_skip ai st l hseen)
        · rcases hall l (by simp) with h | h
          · exact absurd h hseen
          · exact Or.inr (processListing_fail ai st l hseen h)
      rcases hst with h | h
      · rw [h]; exact ih st (fun l' hl' => hall l' (by simp [hl']))
      · rw [h]
        exact ih _ (fun l' hl' => hall l' (by simp [hl']))

/-- After the loop, every listing of the batch either has its url in the final
seen set or fails evaluation. -/
theorem foldl_coverage (ai : Listing → Option (String × String × String)) :
    ∀ (b : List Listing) (st : PipeState) (l : Listing), l ∈ b →
    l.job_url ∈ (b.foldl (processListing ai) st).seen ∨ ai l = none := by
  intro b
  induction b with
  | nil => intro st l hl; cases hl
  | cons l₀ b ih =>
      intro st l hl
      simp only [List.foldl_cons]
      rcases List.mem_cons.mp hl with rfl | hl
      · by_cases hseen : l.job_url ∈ st.seen
        · exact Or.inl (foldl_seen_mono ai b _
            (by rw [processListing_skip ai st l hseen]; exact hseen))
        · cases hai : ai l with
          | none => exact Or.inr rfl
          | some v =>
              refine Or.inl (foldl_seen_mono ai b _ ?_)
              rw [processListing_ok ai st l v hseen hai]
              simp
      · exact ih _ l hl

/-- The no-duplicate-links invariant is preserved by the loop: if the links of
an ambient prefix `P` (the prior persisted rows) together with the links of the
rows accumulated so far are duplicate-free and all belong to the seen set, the
same holds after the loop. -/
theorem foldl_nodup (ai : Listing → Option (String × String × String))
    (P : List String) :
    ∀ (b : List Listing) (st : PipeState),
    (P ++ st.rows.map Row.link).Nodup →
    (∀ u ∈ P ++ st.rows.map Row.link, u ∈ st.seen) →
    ((P ++ (b.foldl (processListing ai) st).rows.map Row.link).Nodup
    ∧ (∀ u ∈ P ++ (b.foldl (processListing ai) st).rows.map Row.link,
        u ∈ (b.foldl (processListing ai) st).seen)) := by
  intro b
  induction b with
  | nil => intro st h1 h2; exact ⟨h1, h2⟩
  | cons l b ih =>
      intro st h1 h2
      simp only [List.foldl_cons]
      by_cases hseen : l.job_url ∈ st.seen
      · rw [processListing_skip ai st l hseen]; exact ih st h1 h2
      · cases hai : ai l with
        | none =>
            rw [processListing_fail ai st l hseen hai]
            exact ih _ (by simpa using h1) (by simpa using h2)
        | some v =>
            rw [processListing_ok ai st l v hseen hai]
            refine ih _ ?_ ?_
            · simp only [List.map_append, List.map_cons, List.map_nil, mkRow]
              have hfresh : l.job_url ∉ P ++ st.rows.map Row.link := by
                intro hmem
                exact hseen (h2 _ hmem)
              have : P ++ (st.rows.map Row.link ++ [l.job_url])
                  = (P ++ st.rows.map Row.link) ++ [l.job_url] := by simp
              rw [this]
              exact List.Nodup.append h1 (List.nodup_singleton _)
                (by simpa [List.disjoint_singleton] using hfresh)
            · intro u hu
              simp only [List.map_append, List.map_cons, List.map_nil, mkRow,
                List.mem_append, List.mem_singleton] at hu
              rcases hu with hu | hu | rfl
              · exact List.mem_append_left _ (h2 u (List.mem_append_left _ hu))
              · exact List.mem_append_left _
                  (h2 u (List.mem_append_right _ hu))
              · simp

/-- The final seen set of one batch run is exactly the initial url list
followed by the links of the rows the run produced. -/
theorem scrape_seen_eq (ai : Listing → Option (String × String × String))
    (s : List String) (b : List Listing) :
    (scrape_and_filter_ai ai s b).seen
      = s ++ (scrape_and_filter_ai ai s b).rows.map Row.link := by
  obtain ⟨Δ, hr, hs⟩ := foldl_delta ai b ⟨[], s, []⟩
  unfold scrape_and_filter_ai at *
  simp only [List.nil_append] at hr
  rw [hs, hr]

/-! ### Claims about the pipeline -/

/-- C1: deduplication is idempotent and the result set keeps its links unique.
The per-listing evaluation (retry wrapper plus parser) is modelled as a
deterministic function `ai`; `runPipeline` is one `main`-level run (load prior
rows, build `unique_urls` from their `link` column, process the batch, concat).
Running an unchanged batch a second time appends zero new rows, and if the
prior rows had pairwise distinct urls then so does the concatenated result. -/
theorem dedup_idempotent_and_links_unique
    (ai : Listing → Option (String × String × String))
    (data : List Row) (batch : List Listing) :
    runPipeline ai (runPipeline ai data batch) batch = runPipeline ai data batch
    ∧ ((data.map Row.link).Nodup →
        ((runPipeline ai data batch).map Row.link).Nodup) := by
  constructor
  · have hcov : ∀ l ∈ batch,
        l.job_url ∈ (runPipeline ai data batch).map Row.link ∨ ai l = none := by
      intro l hl
      have := foldl_coverage ai batch ⟨[], data.map Row.link, []⟩ l hl
      rcases this with h | h
      · left
        have hseen := scrape_seen_eq ai (data.map Row.link) batch
        unfold scrape_and_filter_ai at hseen
        rw [hseen] at h
        simpa [runPipeline, scrape_and_filter_ai] using h
      · exact Or.inr h
    have hskip := foldl_skipAll ai batch
      ⟨[], (runPipeline ai data batch).map Row.link, []⟩
      (by intro l hl; simpa using hcov l hl)
    generalize hdf : runPipeline ai data batch = df1 at hskip ⊢
    unfold runPipeline scrape_and_filter_ai
    rw [hskip.1]
    simp
  · intro hnodup
    have := (foldl_nodup ai (data.map Row.link) batch ⟨[], data.map Row.link, []⟩
      (by simpa using hnodup) (by simp)).1
    unfold runPipeline scrape_and_filter_ai
    simpa using this

/-- Witness for C1 at a concrete oracle, empty prior set and a three-listing
batch containing a duplicated url and a listing that fails evaluation. -/
theorem dedup_idempotent_and_links_unique_witness :
    (([] : List Row).map Row.link).Nodup
    ∧ runPipeline aiSample (runPipeline aiSample [] [sampleListing1, sampleListing2, sampleListing1])
        [sampleListing1, sampleListing2, sampleListing1]
      = runPipeline aiSample [] [sampleListing1, sampleListing2, sampleListing1]
    ∧ ((runPipeline aiSample [] [sampleListing1, sampleListing2, sampleListing1]).map Row.link).Nodup :=
  ⟨by decide,
   (dedup_idempotent_and_links_unique aiSample [] _).1,
   (dedup_idempotent_and_links_unique aiSample [] _).2 (by decide)⟩

/-- C7: a failure while evaluating one listing (the broad `except` at jobs.py
line 333 catches it) skips only that listing: the rows and the seen set of the
run are the same as if the failing listing were absent from the batch, so the
rows accumulated before it are unchanged and every later listing is still
processed; the pipeline is a total function, so it returns normally. -/
theorem failing_listing_skipped
    (ai : Listing → Option (String × String × String)) (s : List String)
    (b1 b2 : List Listing) (l : Listing) (hfail : ai l = none) :
    (scrape_and_filter_ai ai s (b1 ++ l :: b2)).rows
      = (scrape_and_filter_ai ai s (b1 ++ b2)).rows
    ∧ (scrape_and_filter_ai ai s (b1 ++ l :: b2)).seen
      = (scrape_and_filter_ai ai s (b1 ++ b2)).seen := by
  unfold scrape_and_filter_ai
  rw [List.foldl_append, List.foldl_append]
  set st1 := b1.foldl (processListing ai) ⟨[], s, []⟩ with hst1
  rw [List.foldl_cons]
  by_cases hseen : l.job_url ∈ st1.seen
  · rw [processListing_skip ai st1 l hseen]
    exact ⟨rfl, rfl⟩
  · rw [processListing_fail ai st1 l hseen hfail]
    have := foldl_invokedIrrel ai b2 st1.rows st1.seen
      (st1.invoked ++ [l.job_url]) st1.invoked
    simpa using this

/-- Witness for C7: a concrete always-failing listing in the middle of a
two-listing batch. -/
theorem failing_listing_skipped_witness :
    aiSample sampleListing2 = none
    ∧ (scrape_and_filter_ai aiSample [] ([sampleListing1] ++ sampleListing2 :: [sampleListing1])).rows
        = (scrape_and_filter_ai aiSample [] ([sampleListing1] ++ [sampleListing1])).rows
    ∧ (scrape_and_filter_ai aiSample [] ([sampleListing1] ++ sampleListing2 :: [sampleListing1])).seen
        = (scrape_and_filter_ai aiSample [] ([sampleListing1] ++ [sampleListing1])).seen :=
  ⟨by decide,
   (failing_listing_skipped aiSample [] [sampleListing1] [sampleListing1]
      sampleListing2 (by decide)).1,
   (failing_listing_skipped aiSample [] [sampleListing1] [sampleListing1]
      sampleListing2 (by decide)).2⟩

/-- C10: a url is marked seen only when its row is appended (the
`unique_urls.add` at jobs.py line 331 runs after the append at line 330, and
only when no exception was raised before it): the final seen set is exactly
the initial one plus the links of the appended rows; and a listing whose
evaluation fails is not marked seen, so when the same listing appears again it
is evaluated again (the model is invoked a second time) instead of being
skipped by the dedup check. -/
theorem failed_listing_not_marked_seen
    (ai : Listing → Option (String × String × String)) (s : List String) :
    (∀ b : List Listing,
      (scrape_and_filter_ai ai s b).seen
        = s ++ (scrape_and_filter_ai ai s b).rows.map Row.link)
    ∧ (∀ l : Listing, ai l = none → l.job_url ∉ s →
        (scrape_and_filter_ai ai s [l, l]).invoked = [l.job_url, l.job_url]
        ∧ (scrape_and_filter_ai ai s [l, l]).rows = []
        ∧ (scrape_and_filter_ai ai s [l, l]).seen = s) := by
  constructor
  · exact scrape_seen_eq ai s
  · intro l hfail hnot
    unfold scrape_and_filter_ai
    simp only [List.foldl_cons, List.foldl_nil]
    rw [processListing_fail ai ⟨[], s, []⟩ l hnot hfail]
    simp only [List.nil_append]
    rw [processListing_fail ai ⟨[], s, [l.job_url]⟩ l hnot hfail]
    exact ⟨rfl, rfl, rfl⟩

/-- Witness for C10: a concrete failing listing appearing twice with an empty
initial seen set. -/
theorem failed_listing_not_marked_seen_witness :
    (scrape_and_filter_ai aiNever [] [sampleListing1]).seen
      = [] ++ (scrape_and_filter_ai aiNever [] [sampleListing1]).rows.map Row.link
    ∧ (scrape_and_filter_ai aiNever [] [sampleListing1, sampleListing1]).invoked
        = [sampleListing1.job_url, sampleListing1.job_url]
    ∧ (scrape_and_filter_ai aiNever [] [sampleListing1, sampleListing1]).rows = []
    ∧ (scrape_and_filter_ai aiNever [] [sampleListing1, sampleListing1]).seen = [] :=
  ⟨(failed_listing_not_marked_seen aiNever []).1 [sampleListing1],
   (failed_listing_not_marked_seen aiNever []).2 sampleListing1 rfl (by decide)⟩

/-! ### Retry lemmas -/

/-- A failing oracle result is the error of its own message. -/
theorem isErrB_eq_error {r : Except String String} (h : isErrB r = true) :
    r = .error (errMsgOf r) := by
  cases r with
  | ok v => simp [isErrB] at h
  | error e => rfl

theorem countCalls_failTrace (b : ℚ) (l : List Nat) :
    countCalls (failTrace b l) = l.length := by
  induction l with
  | nil => rfl
  | cons a l ih => simp [failTrace, countCalls, List.countP_cons] at ih ⊢; omega

theorem countSleeps_failTrace (b : ℚ) (l : List Nat) :
    countSleeps (failTrace b l) = l.length := by
  induction l with
  | nil => rfl
  | cons a l ih => simp [failTrace, countSleeps, List.countP_cons] at ih ⊢; omega

/-- Unfolding lemma: successful attempt returns at once. -/
theorem retryLoop_ok_head (oracle : Nat → Except String String) (b : ℚ)
    (a : Nat) (l : List Nat) (e0 : Option String) (r : String)
    (h : oracle a = .ok r) :
    retryLoop oracle b (a :: l) e0 = ([.call a], .ok r) := by
  unfold retryLoop
  rw [h]

/-- Unfolding lemma: failed attempt logs the call, sleeps, and continues with
the failure recorded as `last_err`. -/
theorem retryLoop_err_head (oracle : Nat → Except String String) (b : ℚ)
    (a : Nat) (l : List Nat) (e0 : Option String) (e : String)
    (h : oracle a = .error e) :
    retryLoop oracle b (a :: l) e0 =
      (.call a :: .sleep (b * (a : ℚ)) :: (retryLoop oracle b l (some e)).1,
        (retryLoop oracle b l (some e)).2) := by
  conv_lhs => unfold retryLoop
  rw [h]

/-- The wrapper never performs more calls than it has attempts. -/
theorem retryLoop_calls_le (oracle : Nat → Except String String) (b : ℚ) :
    ∀ (l : List Nat) (e0 : Option String),
    countCalls (retryLoop oracle b l e0).1 ≤ l.length := by
  intro l
  induction l with
  | nil => intro e0; cases e0 <;> simp [retryLoop, countCalls]
  | cons a l ih =>
      intro e0
      cases h : oracle a with
      | ok r => rw [retryLoop_ok_head oracle b a l e0 r h]; simp [countCalls]
      | error e =>
          rw [retryLoop_err_head oracle b a l e0 e h]
          simp only [countCalls, List.countP_cons] at ih ⊢
          have := ih (some e)
          simp at this ⊢
          omega

/-- Running through a prefix of failing attempts produces exactly the
call/sleep trace of that prefix, then continues on the rest. -/
theorem retryLoop_failPrefix (oracle : Nat → Except String String) (b : ℚ) :
    ∀ (l1 l2 : List Nat) (e0 : Option String),
    (∀ a ∈ l1, isErrB (oracle a) = true) →
    ∃ e', retryLoop oracle b (l1 ++ l2) e0
      = (failTrace b l1 ++ (retryLoop oracle b l2 e').1,
          (retryLoop oracle b l2 e').2)
      ∧ (l1 = [] → e' = e0) := by
  intro l1
  induction l1 with
  | nil => intro l2 e0 _; exact ⟨e0, by simp [failTrace], fun _ => rfl⟩
  | cons a l1 ih =>
      intro l2 e0 hall
      have ha := isErrB_eq_error (hall a (by simp))
      rw [List.cons_append,
        retryLoop_err_head oracle b a (l1 ++ l2) e0 (errMsgOf (oracle a)) ha]
      obtain ⟨e', he', -⟩ := ih l2 (some (errMsgOf (oracle a)))
        (fun x hx => hall x (by simp [hx]))
      refine ⟨e', ?_, by simp⟩
      rw [he']
      simp [failTrace]

/-- When every listed attempt fails, the trace is the full call/sleep trace. -/
theorem retryLoop_allFail_trace (oracle : Nat → Except String String) (b : ℚ) :
    ∀ (l : List Nat) (e0 : Option String),
    (∀ a ∈ l, isErrB (oracle a) = true) →
    (retryLoop oracle b l e0).1 = failTrace b l := by
  intro l e0 hall
  obtain ⟨e', he', -⟩ := retryLoop_failPrefix oracle b l [] e0 hall
  rw [List.append_nil] at he'
  rw [he']
  cases e' <;> simp [retryLoop]

/-! ### Claims about the retry wrapper -/

/-- C5: `send_with_retries` calls the backend at most `tries` times; when the
first `n - 1` attempts fail and attempt `n ≤ tries` succeeds, it performs the
calls `1, …, n` with a sleep of `backoff_sec * a` after each failing attempt
`a`, and returns that first success with no further calls; when all `tries ≥ 1`
attempts fail it re-raises the last observed error, preserving its message,
after exactly `tries` calls. -/
theorem send_with_retries_spec (oracle : Nat → Except String String)
    (tries : Nat) (backoff_sec : ℚ) :
    countCalls (send_with_retries oracle tries backoff_sec).1 ≤ tries
    ∧ (∀ n r, 1 ≤ n → n ≤ tries →
        (∀ a, a < n → 1 ≤ a → isErrB (oracle a) = true) → oracle n = .ok r →
        send_with_retries oracle tries backoff_sec
          = (failTrace backoff_sec (List.range' 1 (n - 1)) ++ [.call n], .ok r))
    ∧ (1 ≤ tries →
        (∀ a, a ≤ tries → 1 ≤ a → isErrB (oracle a) = true) →
        (send_with_retries oracle tries backoff_sec).2
            = .raised (errMsgOf (oracle tries))
          ∧ countCalls (send_with_retries oracle tries backoff_sec).1 = tries) := by
  refine ⟨?_, ?_, ?_⟩
  · have := retryLoop_calls_le oracle backoff_sec (List.range' 1 tries) none
    simpa [send_with_retries] using this
  · intro n r h1 hn hfail hok
    unfold send_with_retries
    have hsplit : List.range' 1 tries
        = List.range' 1 (n - 1) ++ (n :: List.range' (n + 1) (tries - n)) := by
      have h2 : List.range' n (tries - n + 1) = n :: List.range' (n + 1) (tries - n) :=
        List.range'_succ n (tries - n) 1
      have h3 : List.range' 1 (n - 1) ++ List.range' (1 + 1 * (n - 1)) (tries - n + 1)
          = List.range' 1 ((tries - n + 1) + (n - 1)) := List.range'_append 1 (n - 1) (tries - n + 1) 1
      have h4 : 1 + 1 * (n - 1) = n := by omega
      have h5 : (tries - n + 1) + (n - 1) = tries := by omega
      rw [h4, h5] at h3
      rw [← h3, h2]
    rw [hsplit]
    obtain ⟨e', he', -⟩ := retryLoop_failPrefix oracle backoff_sec
      (List.range' 1 (n - 1)) (n :: List.range' (n + 1) (tries - n)) none
      (by
        intro a ha
        rw [List.mem_range'_1] at ha
        exact hfail a (by omega) (by omega))
    rw [he', retryLoop_ok_head oracle backoff_sec n _ e' r hok]
  · intro h1 hfail
    unfold send_with_retries
    have hsplit : List.range' 1 tries = List.range' 1 (tries - 1) ++ [tries] := by
      have h2 := @List.range'_concat 1 1 (tries - 1)
      have h3 : tries - 1 + 1 = tries := by omega
      have h4 : 1 + 1 * (tries - 1) = tries := by omega
      rw [h3, h4] at h2
      exact h2
    have hmem : ∀ a ∈ List.range' 1 tries, isErrB (oracle a) = true := by
      intro a ha
      rw [List.mem_range'_1] at ha
      exact hfail a (by omega) (by omega)
    constructor
    · rw [hsplit]
      obtain ⟨e', he', -⟩ := retryLoop_failPrefix oracle backoff_sec
        (List.range' 1 (tries - 1)) [tries] none
        (by
          intro a ha
          rw [List.mem_range'_1] at ha
          exact hfail a (by omega) (by omega))
      rw [he',
        retryLoop_err_head oracle backoff_sec tries [] e' (errMsgOf (oracle tries))
          (isErrB_eq_error (hfail tries le_rfl h1))]
      simp [retryLoop]
    · rw [retryLoop_allFail_trace oracle backoff_sec (List.range' 1 tries) none hmem,
        countCalls_failTrace]
      simp

/-- Witness for C5: the bound, the success-on-attempt-2 case, and the
exhaustion case at concrete oracles with `tries = 3` resp. `2` and backoff
`3 / 2`. -/
theorem send_with_retries_spec_witness :
    countCalls (send_with_retries oracleSecond 3 (3 / 2)).1 ≤ 3
    ∧ send_with_retries oracleSecond 3 (3 / 2)
        = (failTrace (3 / 2) (List.range' 1 1) ++ [.call 2], .ok "pong")
    ∧ (send_with_retries oracleNever 2 (3 / 2)).2 = .raised (errMsgOf (oracleNever 2))
    ∧ countCalls (send_with_retries oracleNever 2 (3 / 2)).1 = 2 :=
  ⟨(send_with_retries_spec oracleSecond 3 (3 / 2)).1,
   (send_with_retries_spec oracleSecond 3 (3 / 2)).2.1 2 "pong" (by decide)
     (by decide) (by decide) rfl,
   ((send_with_retries_spec oracleNever 2 (3 / 2)).2.2 (by decide) (by decide)).1,
   ((send_with_retries_spec oracleNever 2 (3 / 2)).2.2 (by decide) (by decide)).2⟩

/-- C9: when every attempt fails, the wrapper sleeps after the final failed
attempt as well — the trace is `call 1, sleep b·1, …, call tries,
sleep b·tries`: it contains `tries` sleeps and ends in the sleep
`backoff_sec * tries`, even though no further attempt follows. -/
theorem send_with_retries_sleeps_after_final_failure
    (oracle : Nat → Except String String) (tries : Nat) (backoff_sec : ℚ)
    (h1 : 1 ≤ tries)
    (hfail : ∀ a, a ≤ tries → 1 ≤ a → isErrB (oracle a) = true) :
    (send_with_retries oracle tries backoff_sec).1
        = failTrace backoff_sec (List.range' 1 tries)
    ∧ countSleeps (send_with_retries oracle tries backoff_sec).1 = tries
    ∧ (send_with_retries oracle tries backoff_sec).1.getLast?
        = some (.sleep (backoff_sec * (tries : ℚ))) := by
  have hmem : ∀ a ∈ List.range' 1 tries, isErrB (oracle a) = true := by
    intro a ha
    rw [List.mem_range'_1] at ha
    exact hfail a (by omega) (by omega)
  have htr : (send_with_retries oracle tries backoff_sec).1
      = failTrace backoff_sec (List.range' 1 tries) :=
    retryLoop_allFail_trace oracle backoff_sec (List.range' 1 tries) none hmem
  refine ⟨htr, by rw [htr, countSleeps_failTrace]; simp, ?_⟩
  rw [htr]
  have hsplit : List.range' 1 tries = List.range' 1 (tries - 1) ++ [tries] := by
    have h2 := @List.range'_concat 1 1 (tries - 1)
    have h3 : tries - 1 + 1 = tries := by omega
    have h4 : 1 + 1 * (tries - 1) = tries := by omega
    rw [h3, h4] at h2
    exact h2
  rw [hsplit]
  unfold failTrace
  rw [List.flatMap_append]
  simp [List.getLast?_append]

/-- Witness for C9: the always-failing oracle with two attempts. -/
theorem send_with_retries_sleeps_after_final_failure_witness :
    (send_with_retries oracleNever 2 (3 / 2)).1
        = failTrace (3 / 2) (List.range' 1 2)
    ∧ countSleeps (send_with_retries oracleNever 2 (3 / 2)).1 = 2
    ∧ (send_with_retries oracleNever 2 (3 / 2)).1.getLast?
        = some (.sleep ((3 / 2) * (2 : ℚ))) :=
  send_with_retries_sleeps_after_final_failure oracleNever 2 (3 / 2)
    (by decide) (by decide)

/-! ### Prompt-rendering lemmas -/

/-- The scanning core gives the same result under any sufficient fuel. -/
theorem pyReplaceGo_fuel (pat rep : Str) :
    ∀ (n : Nat) (s : Str), s.length ≤ n → ∀ (f g : Nat), s.length ≤ f →
    s.length ≤ g → pyReplaceGo pat rep f s = pyReplaceGo pat rep g s := by
  intro n
  induction n with
  | zero =>
      intro s hs f g _ _
      have hnil : s = [] := List.length_eq_zero.mp (Nat.le_zero.mp hs)
      subst hnil
      cases f <;> cases g <;> rfl
  | succ n ih =>
      intro s hs f g hf hg
      cases s with
      | nil => cases f <;> cases g <;> rfl
      | cons c cs =>
          simp only [List.length_cons] at hs hf hg
          obtain ⟨f', rfl⟩ : ∃ f', f = f' + 1 := ⟨f - 1, by omega⟩
          obtain ⟨g', rfl⟩ : ∃ g', g = g' + 1 := ⟨g - 1, by omega⟩
          simp only [pyReplaceGo]
          by_cases hp : pat.isPrefixOf (c :: cs)
          · rw [if_pos hp, if_pos hp]
            congr 1
            refine ih (cs.drop (pat.length - 1)) ?_ f' g' ?_ ?_ <;>
              (rw [List.length_drop]; omega)
          · rw [if_neg hp, if_neg hp]
            congr 1
            exact ih cs (by omega) f' g' (by omega) (by omega)

/-- `replace` substitutes a pattern sitting at the head of the string and
scans on after the replacement, which is not itself rescanned. -/
theorem pyReplace_head (p : Char) (pt rep r : Str) :
    pyReplace ((p :: pt) ++ r) (p :: pt) rep = rep ++ pyReplace r (p :: pt) rep := by
  show pyReplaceGo (p :: pt) rep ((p :: pt) ++ r).length ((p :: pt) ++ r) = _
  rw [List.cons_append]
  simp only [List.length_cons]
  simp only [pyReplaceGo]
  have hpre : (p :: pt).isPrefixOf (p :: (pt ++ r)) = true := by
    rw [List.isPrefixOf_iff_prefix]
    exact ⟨r, by simp⟩
  rw [if_pos hpre]
  congr 1
  simp only [List.length_cons, Nat.add_sub_cancel]
  rw [List.drop_left]
  exact pyReplaceGo_fuel (p :: pt) rep (pt ++ r).length r
    (by simp) (pt ++ r).length r.length (by simp) le_rfl

/-- `replace` walks over any prefix free of the pattern's head character. -/
theorem pyReplace_skip (h : Char) (pt rep : Str) :
    ∀ (a r : Str), (∀ c ∈ a, c ≠ h) →
    pyReplace (a ++ r) (h :: pt) rep = a ++ pyReplace r (h :: pt) rep := by
  intro a
  induction a with
  | nil => intro r _; simp
  | cons c a ih =>
      intro r ha
      show pyReplaceGo (h :: pt) rep ((c :: a ++ r)).length (c :: a ++ r) = _
      simp only [List.cons_append, List.length_cons]
      simp only [pyReplaceGo]
      rw [if_neg (fun hcon => by
        rw [List.isPrefixOf_iff_prefix] at hcon
        obtain ⟨t, ht⟩ := hcon
        rw [List.cons_append] at ht
        exact ha c (by simp) (by injection ht with h1 _; exact h1.symm))]
      congr 1
      exact ih r (fun x hx => ha x (by simp [hx]))

/-- Replacement of a single-character pattern, as a `flatMap`. -/
theorem pyReplace_single (c : Char) (rep : Str) :
    ∀ s : Str, pyReplace s [c] rep
      = s.flatMap (fun x => if x = c then rep else [x]) := by
  intro s
  induction s with
  | nil => rfl
  | cons x xs ih =>
      show pyReplaceGo [c] rep (x :: xs).length (x :: xs) = _
      simp only [List.length_cons]
      simp only [pyReplaceGo]
      by_cases hx : x = c
      · subst hx
        rw [if_pos (by rw [List.isPrefixOf_iff_prefix]; exact ⟨xs, rfl⟩)]
        simp only [List.length_singleton, Nat.sub_self, List.drop_zero]
        rw [show pyReplaceGo [x] rep xs.length xs = pyReplace xs [x] rep from rfl, ih]
        simp
      · rw [if_neg (fun hcon => by
          rw [List.isPrefixOf_iff_prefix] at hcon
          obtain ⟨t, ht⟩ := hcon
          exact hx (by injection ht with h1 _; exact h1.symm))]
        rw [show pyReplaceGo [c] rep xs.length xs = pyReplace xs [c] rep from rfl, ih]
        simp [hx]

/-- The brace-escaping pass distributes over concatenation. -/
theorem escapeBraces_append (a b : Str) :
    escapeBraces (a ++ b) = escapeBraces a ++ escapeBraces b := by
  unfold escapeBraces
  simp only [pyReplace_single, List.flatMap_append]

/-- A mismatch established within `s` refutes the pattern under any suffix. -/
theorem headMismatch_no_prefix :
    ∀ (pat s : Str), headMismatch pat s = true →
    ∀ r, pat.isPrefixOf (s ++ r) = false := by
  intro pat
  induction pat with
  | nil => intro s h; simp [headMismatch] at h
  | cons p pt ih =>
      intro s h r
      cases s with
      | nil => simp [headMismatch] at h
      | cons c cs =>
          simp only [headMismatch, Bool.or_eq_true, decide_eq_true_eq] at h
          rw [List.cons_append]
          show (p == c && pt.isPrefixOf (cs ++ r)) = false
          rcases h with h | h
          · simp [h]
          · simp [ih cs h r]

/-- `replace` walks over any block at whose positions the pattern provably
mismatches, whatever follows. -/
theorem cleanFor_skip (p : Char) (pt rep : Str) :
    ∀ (a : Str), cleanFor (p :: pt) a = true →
    ∀ r, pyReplace (a ++ r) (p :: pt) rep = a ++ pyReplace r (p :: pt) rep := by
  intro a
  induction a with
  | nil => intro _ r; simp
  | cons c cs ih =>
      intro h r
      simp only [cleanFor, Bool.and_eq_true] at h
      show pyReplaceGo (p :: pt) rep ((c :: cs) ++ r).length ((c :: cs) ++ r) = _
      simp only [List.cons_append, List.length_cons]
      simp only [pyReplaceGo]
      rw [if_neg (by
        have := headMismatch_no_prefix (p :: pt) (c :: cs) h.1 r
        rw [List.cons_append] at this
        simp [this])]
      congr 1
      exact ih h.2 r

/-- A clean block is untouched by `replace`. -/
theorem cleanFor_id (p : Char) (pt rep : Str) (a : Str)
    (h : cleanFor (p :: pt) a = true) :
    pyReplace a (p :: pt) rep = a := by
  have hs := cleanFor_skip p pt rep a h []
  rw [List.append_nil] at hs
  rw [hs, show pyReplace [] (p :: pt) rep = [] from rfl, List.append_nil]

/-- A block avoiding the pattern's first character is clean for it. -/
theorem cleanFor_of_ne_head (p : Char) (pt : Str) :
    ∀ (v : Str), (∀ c ∈ v, c ≠ p) → cleanFor (p :: pt) v = true := by
  intro v
  induction v with
  | nil => intro _; rfl
  | cons c cs ih =>
      intro h
      simp only [cleanFor, headMismatch, Bool.and_eq_true, Bool.or_eq_true,
        decide_eq_true_eq]
      exact ⟨Or.inl (fun he => h c (by simp) he.symm),
        ih (fun x hx => h x (by simp [hx]))⟩

/-! ### Concrete facts about the escaped template (chunkwise, by computation) -/

theorem escape_promptSeg1 : escapeBraces promptSeg1.data = promptSeg1.data := by decide

theorem escape_promptSeg2 : escapeBraces promptSeg2.data = promptSeg2.data := by decide

theorem escape_promptSeg3 : escapeBraces promptSeg3.data = promptSeg3.data := by decide

theorem escape_promptSeg4a : escapeBraces promptSeg4a.data = promptSeg4a.data := by decide

theorem escape_promptSeg4b : escapeBraces promptSeg4b.data = promptSeg4b.data := by decide

theorem escape_promptSeg4c : escapeBraces promptSeg4c.data = promptSeg4c.data := by decide

theorem escape_patTitle : escapeBraces "\x7btitle\x7d".data
    = lbraceChar :: lbraceChar :: ("title".data ++ [rbraceChar, rbraceChar]) := by decide

theorem escape_patDescription : escapeBraces "\x7bdescription\x7d".data
    = lbraceChar :: lbraceChar :: ("description".data ++ [rbraceChar, rbraceChar]) := by decide

theorem escape_patResume : escapeBraces "\x7bresume_text\x7d".data
    = lbraceChar :: lbraceChar :: ("resume_text".data ++ [rbraceChar, rbraceChar]) := by decide

/-- Escaping the text after the placeholders doubles exactly the braces of
the JSON output example. -/
theorem escape_promptSeg4 : escapeBraces promptSeg4.data
    = promptSeg4a.data ++ (promptSeg4b.data ++ (promptSeg4c.data ++ jsonBlockEsc)) := by
  have hdata : promptSeg4.data
      = promptSeg4a.data ++ (promptSeg4b.data ++ (promptSeg4c.data
          ++ ("\x7b".data ++ (promptSeg4Mid.data ++ ("\x7d".data ++ "\n".data))))) := by
    simp [promptSeg4, String.data_append, List.append_assoc]
  rw [hdata]
  simp only [escapeBraces_append]
  rw [escape_promptSeg4a, escape_promptSeg4b, escape_promptSeg4c,
    show escapeBraces "\x7b".data = [lbraceChar, lbraceChar] from by decide,
    show escapeBraces promptSeg4Mid.data = promptSeg4Mid.data from by decide,
    show escapeBraces "\x7d".data = [rbraceChar, rbraceChar] from by decide,
    show escapeBraces "\n".data = ['\n'] from by decide]
  simp [jsonBlockEsc, List.append_assoc]

/-- The escaped template, decomposed around the three doubled placeholders. -/
theorem escape_prompt : escapeBraces PERSONAL_JOB_FINDER_PROMPT
    = promptSeg1.data
      ++ ((lbraceChar :: lbraceChar :: ("title".data ++ [rbraceChar, rbraceChar]))
      ++ (promptSeg2.data
      ++ ((lbraceChar :: lbraceChar :: ("description".data ++ [rbraceChar, rbraceChar]))
      ++ (promptSeg3.data
      ++ ((lbraceChar :: lbraceChar :: ("resume_text".data ++ [rbraceChar, rbraceChar]))
      ++ (promptSeg4a.data ++ (promptSeg4b.data ++ (promptSeg4c.data ++ jsonBlockEsc)))))))) := by
  unfold PERSONAL_JOB_FINDER_PROMPT
  simp only [escapeBraces_append]
  rw [escape_promptSeg1, escape_patTitle, escape_promptSeg2, escape_patDescription,
    escape_promptSeg3, escape_patResume, escape_promptSeg4]
  simp only [List.append_assoc]

/-! Clean-scan facts: at no position of these blocks can the given doubled
placeholder start a match, whatever follows. -/

theorem cleanTitle_seg1 :
    cleanFor (lbraceChar :: lbraceChar :: ("title".data ++ [rbraceChar, rbraceChar]))
      promptSeg1.data = true := by decide

theorem cleanTitle_seg2 :
    cleanFor (lbraceChar :: lbraceChar :: ("title".data ++ [rbraceChar, rbraceChar]))
      promptSeg2.data = true := by decide

theorem cleanTitle_seg3 :
    cleanFor (lbraceChar :: lbraceChar :: ("title".data ++ [rbraceChar, rbraceChar]))
      promptSeg3.data = true := by decide

theorem cleanTitle_patDesc :
    cleanFor (lbraceChar :: lbraceChar :: ("title".data ++ [rbraceChar, rbraceChar]))
      (lbraceChar :: lbraceChar :: ("description".data ++ [rbraceChar, rbraceChar]))
      = true := by decide

theorem cleanTitle_patRes :
    cleanFor (lbraceChar :: lbraceChar :: ("title".data ++ [rbraceChar, rbraceChar]))
      (lbraceChar :: lbraceChar :: ("resume_text".data ++ [rbraceChar, rbraceChar]))
      = true := by decide

theorem cleanTitle_seg4a :
    cleanFor (lbraceChar :: lbraceChar :: ("title".data ++ [rbraceChar, rbraceChar]))
      promptSeg4a.data = true := by decide

theorem cleanTitle_seg4b :
    cleanFor (lbraceChar :: lbraceChar :: ("title".data ++ [rbraceChar, rbraceChar]))
      promptSeg4b.data = true := by decide

theorem cleanTitle_seg4c :
    cleanFor (lbraceChar :: lbraceChar :: ("title".data ++ [rbraceChar, rbraceChar]))
      promptSeg4c.data = true := by decide

theorem cleanTitle_jsonBlock :
    cleanFor (lbraceChar :: lbraceChar :: ("title".data ++ [rbraceChar, rbraceChar]))
      jsonBlockEsc = true := by decide

theorem cleanDesc_seg1 :
    cleanFor (lbraceChar :: lbraceChar :: ("description".data ++ [rbraceChar, rbraceChar]))
      promptSeg1.data = true := by decide

theorem cleanDesc_seg2 :
    cleanFor (lbraceChar :: lbraceChar :: ("description".data ++ [rbraceChar, rbraceChar]))
      promptSeg2.data = true := by decide

theorem cleanDesc_seg3 :
    cleanFor (lbraceChar :: lbraceChar :: ("description".data ++ [rbraceChar, rbraceChar]))
      promptSeg3.data = true := by decide

theorem cleanDesc_patRes :
    cleanFor (lbraceChar :: lbraceChar :: ("description".data ++ [rbraceChar, rbraceChar]))
      (lbraceChar :: lbraceChar :: ("resume_text".data ++ [rbraceChar, rbraceChar]))
      = true := by decide

theorem cleanDesc_seg4a :
    cleanFor (lbraceChar :: lbraceChar :: ("description".data ++ [rbraceChar, rbraceChar]))
      promptSeg4a.data = true := by decide

theorem cleanDesc_seg4b :
    cleanFor (lbraceChar :: lbraceChar :: ("description".data ++ [rbraceChar, rbraceChar]))
      promptSeg4b.data = true := by decide

theorem cleanDesc_seg4c :
    cleanFor (lbraceChar :: lbraceChar :: ("description".data ++ [rbraceChar, rbraceChar]))
      promptSeg4c.data = true := by decide

theorem cleanDesc_jsonBlock :
    cleanFor (lbraceChar :: lbraceChar :: ("description".data ++ [rbraceChar, rbraceChar]))
      jsonBlockEsc = true := by decide

theorem cleanRes_seg1 :
    cleanFor (lbraceChar :: lbraceChar :: ("resume_text".data ++ [rbraceChar, rbraceChar]))
      promptSeg1.data = true := by decide

theorem cleanRes_seg2 :
    cleanFor (lbraceChar :: lbraceChar :: ("resume_text".data ++ [rbraceChar, rbraceChar]))
      promptSeg2.data = true := by decide

theorem cleanRes_seg3 :
    cleanFor (lbraceChar :: lbraceChar :: ("resume_text".data ++ [rbraceChar, rbraceChar]))
      promptSeg3.data = true := by decide

theorem cleanRes_seg4a :
    cleanFor (lbraceChar :: lbraceChar :: ("resume_text".data ++ [rbraceChar, rbraceChar]))
      promptSeg4a.data = true := by decide

theorem cleanRes_seg4b :
    cleanFor (lbraceChar :: lbraceChar :: ("resume_text".data ++ [rbraceChar, rbraceChar]))
      promptSeg4b.data = true := by decide

theorem cleanRes_seg4c :
    cleanFor (lbraceChar :: lbraceChar :: ("resume_text".data ++ [rbraceChar, rbraceChar]))
      promptSeg4c.data = true := by decide

theorem cleanRes_jsonBlock :
    cleanFor (lbraceChar :: lbraceChar :: ("resume_text".data ++ [rbraceChar, rbraceChar]))
      jsonBlockEsc = true := by decide

/-- Rendering the template with values free of opening braces: the three
placeholders are substituted in keyword order, the brace-free literal
segments are preserved, and the trailing segment comes out brace-escaped
(its literal braces doubled). -/
theorem format_prompt_render (v1 v2 v3 : Str)
    (h1 : ∀ c ∈ v1, c ≠ lbraceChar) (h2 : ∀ c ∈ v2, c ≠ lbraceChar)
    (_h3 : ∀ c ∈ v3, c ≠ lbraceChar) :
    format_prompt PERSONAL_JOB_FINDER_PROMPT
        [("title".data, v1), ("description".data, v2), ("resume_text".data, v3)]
      = promptSeg1.data ++ (v1 ++ (promptSeg2.data ++ (v2 ++ (promptSeg3.data
          ++ (v3 ++ escapeBraces promptSeg4.data))))) := by
  unfold format_prompt
  rw [List.foldl_cons, List.foldl_cons, List.foldl_cons, List.foldl_nil]
  show pyReplace (pyReplace (pyReplace (escapeBraces PERSONAL_JOB_FINDER_PROMPT)
        (lbraceChar :: lbraceChar :: ("title".data ++ [rbraceChar, rbraceChar])) v1)
      (lbraceChar :: lbraceChar :: ("description".data ++ [rbraceChar, rbraceChar])) v2)
    (lbraceChar :: lbraceChar :: ("resume_text".data ++ [rbraceChar, rbraceChar])) v3
    = _
  rw [escape_prompt]
  -- pass 1: substitute the doubled title placeholder
  rw [cleanFor_skip lbraceChar (lbraceChar :: ("title".data ++ [rbraceChar, rbraceChar]))
      v1 promptSeg1.data cleanTitle_seg1,
    pyReplace_head lbraceChar (lbraceChar :: ("title".data ++ [rbraceChar, rbraceChar])) v1,
    cleanFor_skip lbraceChar (lbraceChar :: ("title".data ++ [rbraceChar, rbraceChar]))
      v1 promptSeg2.data cleanTitle_seg2,
    cleanFor_skip lbraceChar (lbraceChar :: ("title".data ++ [rbraceChar, rbraceChar]))
      v1 (lbraceChar :: lbraceChar :: ("description".data ++ [rbraceChar, rbraceChar]))
      cleanTitle_patDesc,
    cleanFor_skip lbraceChar (lbraceChar :: ("title".data ++ [rbraceChar, rbraceChar]))
      v1 promptSeg3.data cleanTitle_seg3,
    cleanFor_skip lbraceChar (lbraceChar :: ("title".data ++ [rbraceChar, rbraceChar]))
      v1 (lbraceChar :: lbraceChar :: ("resume_text".data ++ [rbraceChar, rbraceChar]))
      cleanTitle_patRes,
    cleanFor_skip lbraceChar (lbraceChar :: ("title".data ++ [rbraceChar, rbraceChar]))
      v1 promptSeg4a.data cleanTitle_seg4a,
    cleanFor_skip lbraceChar (lbraceChar :: ("title".data ++ [rbraceChar, rbraceChar]))
      v1 promptSeg4b.data cleanTitle_seg4b,
    cleanFor_skip lbraceChar (lbraceChar :: ("title".data ++ [rbraceChar, rbraceChar]))
      v1 promptSeg4c.data cleanTitle_seg4c,
    cleanFor_id lbraceChar (lbraceChar :: ("title".data ++ [rbraceChar, rbraceChar]))
      v1 jsonBlockEsc cleanTitle_jsonBlock]
  -- pass 2: substitute the doubled description placeholder
  rw [cleanFor_skip lbraceChar (lbraceChar :: ("description".data ++ [rbraceChar, rbraceChar]))
      v2 promptSeg1.data cleanDesc_seg1,
    cleanFor_skip lbraceChar (lbraceChar :: ("description".data ++ [rbraceChar, rbraceChar]))
      v2 v1 (cleanFor_of_ne_head lbraceChar _ v1 h1),
    cleanFor_skip lbraceChar (lbraceChar :: ("description".data ++ [rbraceChar, rbraceChar]))
      v2 promptSeg2.data cleanDesc_seg2,
    pyReplace_head lbraceChar (lbraceChar :: ("description".data ++ [rbraceChar, rbraceChar])) v2,
    cleanFor_skip lbraceChar (lbraceChar :: ("description".data ++ [rbraceChar, rbraceChar]))
      v2 promptSeg3.data cleanDesc_seg3,
    cleanFor_skip lbraceChar (lbraceChar :: ("description".data ++ [rbraceChar, rbraceChar]))
      v2 (lbraceChar :: lbraceChar :: ("resume_text".data ++ [rbraceChar, rbraceChar]))
      cleanDesc_patRes,
    cleanFor_skip lbraceChar (lbraceChar :: ("description".data ++ [rbraceChar, rbraceChar]))
      v2 promptSeg4a.data cleanDesc_seg4a,
    cleanFor_skip lbraceChar (lbraceChar :: ("description".data ++ [rbraceChar, rbraceChar]))
      v2 promptSeg4b.data cleanDesc_seg4b,
    cleanFor_skip lbraceChar (lbraceChar :: ("description".data ++ [rbraceChar, rbraceChar]))
      v2 promptSeg4c.data cleanDesc_seg4c,
    cleanFor_id lbraceChar (lbraceChar :: ("description".data ++ [rbraceChar, rbraceChar]))
      v2 jsonBlockEsc cleanDesc_jsonBlock]
  -- pass 3: substitute the doubled resume_text placeholder
  rw [cleanFor_skip lbraceChar (lbraceChar :: ("resume_text".data ++ [rbraceChar, rbraceChar]))
      v3 promptSeg1.data cleanRes_seg1,
    cleanFor_skip lbraceChar (lbraceChar :: ("resume_text".data ++ [rbraceChar, rbraceChar]))
      v3 v1 (cleanFor_of_ne_head lbraceChar _ v1 h1),
    cleanFor_skip lbraceChar (lbraceChar :: ("resume_text".data ++ [rbraceChar, rbraceChar]))
      v3 promptSeg2.data cleanRes_seg2,
    cleanFor_skip lbraceChar (lbraceChar :: ("resume_text".data ++ [rbraceChar, rbraceChar]))
      v3 v2 (cleanFor_of_ne_head lbraceChar _ v2 h2),
    cleanFor_skip lbraceChar (lbraceChar :: ("resume_text".data ++ [rbraceChar, rbraceChar]))
      v3 promptSeg3.data cleanRes_seg3,
    pyReplace_head lbraceChar (lbraceChar :: ("resume_text".data ++ [rbraceChar, rbraceChar])) v3,
    cleanFor_skip lbraceChar (lbraceChar :: ("resume_text".data ++ [rbraceChar, rbraceChar]))
      v3 promptSeg4a.data cleanRes_seg4a,
    cleanFor_skip lbraceChar (lbraceChar :: ("resume_text".data ++ [rbraceChar, rbraceChar]))
      v3 promptSeg4b.data cleanRes_seg4b,
    cleanFor_skip lbraceChar (lbraceChar :: ("resume_text".data ++ [rbraceChar, rbraceChar]))
      v3 promptSeg4c.data cleanRes_seg4c,
    cleanFor_id lbraceChar (lbraceChar :: ("resume_text".data ++ [rbraceChar, rbraceChar]))
      v3 jsonBlockEsc cleanRes_jsonBlock]
  rw [escape_promptSeg4]

/-! ### Claims about prompt rendering -/

/-- C8 counterexample: rendering the prompt template is not the claimed
placeholder substitution.  First, with plain values `T`, `D`, `R` the output
differs from the template with placeholders substituted and all other literal
text preserved (the braces of the JSON output example come out doubled).
Second, the substituted description does not always appear verbatim: the
description value `\x7b\x7bresume_text\x7d\x7d` yields exactly the same
output as the description value `R` — the later pass rewrites it. -/
theorem format_prompt_corrupts_counterexample :
    (format_prompt PERSONAL_JOB_FINDER_PROMPT
        [("title".data, "T".data), ("description".data, "D".data),
          ("resume_text".data, "R".data)]
      ≠ promptSeg1.data ++ ("T".data ++ (promptSeg2.data ++ ("D".data
          ++ (promptSeg3.data ++ ("R".data ++ promptSeg4.data))))))
    ∧ format_prompt PERSONAL_JOB_FINDER_PROMPT
        [("title".data, "T".data),
          ("description".data, "\x7b\x7bresume_text\x7d\x7d".data),
          ("resume_text".data, "R".data)]
      = format_prompt PERSONAL_JOB_FINDER_PROMPT
        [("title".data, "T".data), ("description".data, "R".data),
          ("resume_text".data, "R".data)] := by
  constructor
  · intro hcontra
    rw [format_prompt_render "T".data "D".data "R".data
      (by decide) (by decide) (by decide)] at hcontra
    have e1 := List.append_cancel_left hcontra
    have e2 := List.append_cancel_left e1
    have e3 := List.append_cancel_left e2
    have e4 := List.append_cancel_left e3
    have e5 := List.append_cancel_left e4
    have e6 := List.append_cancel_left e5
    rw [escape_promptSeg4,
      show promptSeg4.data = promptSeg4a.data ++ (promptSeg4b.data
          ++ (promptSeg4c.data ++ ("\x7b".data ++ (promptSeg4Mid.data
          ++ ("\x7d".data ++ "\n".data)))))
        from by simp [promptSeg4, String.data_append, List.append_assoc]] at e6
    have e7 := List.append_cancel_left e6
    have e8 := List.append_cancel_left e7
    have e9 := List.append_cancel_left e8
    exact absurd e9 (by decide)
  · rw [format_prompt_render "T".data "R".data "R".data
      (by decide) (by decide) (by decide)]
    unfold format_prompt
    rw [List.foldl_cons, List.foldl_cons, List.foldl_cons, List.foldl_nil]
    show pyReplace (pyReplace (pyReplace (escapeBraces PERSONAL_JOB_FINDER_PROMPT)
          (lbraceChar :: lbraceChar :: ("title".data ++ [rbraceChar, rbraceChar]))
          "T".data)
        (lbraceChar :: lbraceChar :: ("description".data ++ [rbraceChar, rbraceChar]))
        "\x7b\x7bresume_text\x7d\x7d".data)
      (lbraceChar :: lbraceChar :: ("resume_text".data ++ [rbraceChar, rbraceChar]))
      "R".data
      = _
    rw [escape_prompt]
    -- pass 1
    rw [cleanFor_skip lbraceChar (lbraceChar :: ("title".data ++ [rbraceChar, rbraceChar]))
        "T".data promptSeg1.data cleanTitle_seg1,
      pyReplace_head lbraceChar (lbraceChar :: ("title".data ++ [rbraceChar, rbraceChar]))
        "T".data,
      cleanFor_skip lbraceChar (lbraceChar :: ("title".data ++ [rbraceChar, rbraceChar]))
        "T".data promptSeg2.data cleanTitle_seg2,
      cleanFor_skip lbraceChar (lbraceChar :: ("title".data ++ [rbraceChar, rbraceChar]))
        "T".data (lbraceChar :: lbraceChar :: ("description".data ++ [rbraceChar, rbraceChar]))
        cleanTitle_patDesc,
      cleanFor_skip lbraceChar (lbraceChar :: ("title".data ++ [rbraceChar, rbraceChar]))
        "T".data promptSeg3.data cleanTitle_seg3,
      cleanFor_skip lbraceChar (lbraceChar :: ("title".data ++ [rbraceChar, rbraceChar]))
        "T".data (lbraceChar :: lbraceChar :: ("resume_text".data ++ [rbraceChar, rbraceChar]))
        cleanTitle_patRes,
      cleanFor_skip lbraceChar (lbraceChar :: ("title".data ++ [rbraceChar, rbraceChar]))
        "T".data promptSeg4a.data cleanTitle_seg4a,
      cleanFor_skip lbraceChar (lbraceChar :: ("title".data ++ [rbraceChar, rbraceChar]))
        "T".data promptSeg4b.data cleanTitle_seg4b,
      cleanFor_skip lbraceChar (lbraceChar :: ("title".data ++ [rbraceChar, rbraceChar]))
        "T".data promptSeg4c.data cleanTitle_seg4c,
      cleanFor_id lbraceChar (lbraceChar :: ("title".data ++ [rbraceChar, rbraceChar]))
        "T".data jsonBlockEsc cleanTitle_jsonBlock]
    -- pass 2: the description value is itself a doubled resume_text placeholder
    rw [cleanFor_skip lbraceChar (lbraceChar :: ("description".data ++ [rbraceChar, rbraceChar]))
        "\x7b\x7bresume_text\x7d\x7d".data promptSeg1.data cleanDesc_seg1,
      cleanFor_skip lbraceChar (lbraceChar :: ("description".data ++ [rbraceChar, rbraceChar]))
        "\x7b\x7bresume_text\x7d\x7d".data "T".data (by decide),
      cleanFor_skip lbraceChar (lbraceChar :: ("description".data ++ [rbraceChar, rbraceChar]))
        "\x7b\x7bresume_text\x7d\x7d".data promptSeg2.data cleanDesc_seg2,
      pyReplace_head lbraceChar (lbraceChar :: ("description".data ++ [rbraceChar, rbraceChar]))
        "\x7b\x7bresume_text\x7d\x7d".data,
      cleanFor_skip lbraceChar (lbraceChar :: ("description".data ++ [rbraceChar, rbraceChar]))
        "\x7b\x7bresume_text\x7d\x7d".data promptSeg3.data cleanDesc_seg3,
      cleanFor_skip lbraceChar (lbraceChar :: ("description".data ++ [rbraceChar, rbraceChar]))
        "\x7b\x7bresume_text\x7d\x7d".data
        (lbraceChar :: lbraceChar :: ("resume_text".data ++ [rbraceChar, rbraceChar]))
        cleanDesc_patRes,
      cleanFor_skip lbraceChar (lbraceChar :: ("description".data ++ [rbraceChar, rbraceChar]))
        "\x7b\x7bresume_text\x7d\x7d".data promptSeg4a.data cleanDesc_seg4a,
      cleanFor_skip lbraceChar (lbraceChar :: ("description".data ++ [rbraceChar, rbraceChar]))
        "\x7b\x7bresume_text\x7d\x7d".data promptSeg4b.data cleanDesc_seg4b,
      cleanFor_skip lbraceChar (lbraceChar :: ("description".data ++ [rbraceChar, rbraceChar]))
        "\x7b\x7bresume_text\x7d\x7d".data promptSeg4c.data cleanDesc_seg4c,
      cleanFor_id lbraceChar (lbraceChar :: ("description".data ++ [rbraceChar, rbraceChar]))
        "\x7b\x7bresume_text\x7d\x7d".data jsonBlockEsc cleanDesc_jsonBlock]
    -- pass 3: the inserted description value is hit first, then the template's
    rw [cleanFor_skip lbraceChar (lbraceChar :: ("resume_text".data ++ [rbraceChar, rbraceChar]))
        "R".data promptSeg1.data cleanRes_seg1,
      cleanFor_skip lbraceChar (lbraceChar :: ("resume_text".data ++ [rbraceChar, rbraceChar]))
        "R".data "T".data (by decide),
      cleanFor_skip lbraceChar (lbraceChar :: ("resume_text".data ++ [rbraceChar, rbraceChar]))
        "R".data promptSeg2.data cleanRes_seg2,
      show "\x7b\x7bresume_text\x7d\x7d".data
          = lbraceChar :: lbraceChar :: ("resume_text".data ++ [rbraceChar, rbraceChar])
        from by decide,
      pyReplace_head lbraceChar
        (lbraceChar :: ("resume_text".data ++ [rbraceChar, rbraceChar])) "R".data,
      cleanFor_skip lbraceChar (lbraceChar :: ("resume_text".data ++ [rbraceChar, rbraceChar]))
        "R".data promptSeg3.data cleanRes_seg3,
      pyReplace_head lbraceChar
        (lbraceChar :: ("resume_text".data ++ [rbraceChar, rbraceChar])) "R".data,
      cleanFor_skip lbraceChar (lbraceChar :: ("resume_text".data ++ [rbraceChar, rbraceChar]))
        "R".data promptSeg4a.data cleanRes_seg4a,
      cleanFor_skip lbraceChar (lbraceChar :: ("resume_text".data ++ [rbraceChar, rbraceChar]))
        "R".data promptSeg4b.data cleanRes_seg4b,
      cleanFor_skip lbraceChar (lbraceChar :: ("resume_text".data ++ [rbraceChar, rbraceChar]))
        "R".data promptSeg4c.data cleanRes_seg4c,
      cleanFor_id lbraceChar (lbraceChar :: ("resume_text".data ++ [rbraceChar, rbraceChar]))
        "R".data jsonBlockEsc cleanRes_jsonBlock]
    rw [escape_promptSeg4]

/-- C8 amended: `format_prompt` substitutes the escaped placeholders
`\x7b\x7btitle\x7d\x7d`, `\x7b\x7bdescription\x7d\x7d`,
`\x7b\x7bresume_text\x7d\x7d` with the given values in keyword order, and
values free of opening braces are inserted verbatim with the brace-free
literal segments preserved; but literal brace characters of the template are
doubled in the output (the escape pass doubles every brace and nothing
un-doubles them), and a value containing a doubled later placeholder is
itself rewritten by the later substitution pass. -/
theorem format_prompt_spec (v1 v2 v3 : Str)
    (h1 : ∀ c ∈ v1, c ≠ lbraceChar) (h2 : ∀ c ∈ v2, c ≠ lbraceChar)
    (h3 : ∀ c ∈ v3, c ≠ lbraceChar) :
    format_prompt PERSONAL_JOB_FINDER_PROMPT
        [("title".data, v1), ("description".data, v2), ("resume_text".data, v3)]
      = promptSeg1.data ++ (v1 ++ (promptSeg2.data ++ (v2 ++ (promptSeg3.data
          ++ (v3 ++ escapeBraces promptSeg4.data))))) :=
  format_prompt_render v1 v2 v3 h1 h2 h3

/-- Witness for C8's amended claim at concrete brace-free values. -/
theorem format_prompt_spec_witness :
    format_prompt PERSONAL_JOB_FINDER_PROMPT
        [("title".data, "Backend Engineer".data),
          ("description".data, "3 years Python, AWS".data),
          ("resume_text".data, "Python and AWS resume".data)]
      = promptSeg1.data ++ ("Backend Engineer".data ++ (promptSeg2.data
          ++ ("3 years Python, AWS".data ++ (promptSeg3.data
          ++ ("Python and AWS resume".data ++ escapeBraces promptSeg4.data))))) :=
  format_prompt_spec "Backend Engineer".data "3 years Python, AWS".data
    "Python and AWS resume".data (by decide) (by decide) (by decide)

/-! ### Parser lemmas -/

/-- A string whose two ends survive `dropWhile` is unchanged by `strip`. -/
theorem pyStrip_eq_self (s : Str) (h1 : List.dropWhile pyWsChar s = s)
    (h2 : List.dropWhile pyWsChar s.reverse = s.reverse) : pyStrip s = s := by
  unfold pyStrip
  rw [h1, h2, List.reverse_reverse]

/-- `strip` swallows a leading whitespace character. -/
theorem pyStrip_cons_ws (c : Char) (x : Str) (h : pyWsChar c = true) :
    pyStrip (c :: x) = pyStrip x := by
  unfold pyStrip
  rw [List.dropWhile_cons, if_pos h]

/-- `strip` swallows a trailing whitespace character. -/
theorem pyStrip_append_ws (x : Str) (c : Char) (h : pyWsChar c = true) :
    pyStrip (x ++ [c]) = pyStrip x := by
  unfold pyStrip
  rw [List.dropWhile_append]
  cases hdw : (List.dropWhile pyWsChar x).isEmpty with
  | false =>
      rw [if_neg (by simp [hdw])]
      rw [List.reverse_append]
      simp only [List.reverse_cons, List.reverse_nil, List.nil_append,
        List.singleton_append]
      rw [List.dropWhile_cons, if_pos h]
  | true =>
      rw [if_pos rfl]
      have hx : List.dropWhile pyWsChar x = [] := by
        simpa using hdw
      rw [hx]
      have hc : List.dropWhile pyWsChar [c] = [] := by
        rw [show ([c] : Str) = c :: [] from rfl, List.dropWhile_cons, if_pos h]
        rfl
      rw [hc]

/-- Characters of a stripped string come from the original. -/
theorem mem_of_mem_pyStrip {c : Char} {s : Str} (h : c ∈ pyStrip s) : c ∈ s := by
  unfold pyStrip at h
  rw [List.mem_reverse] at h
  have h2 := (@List.dropWhile_sublist _ (List.dropWhile pyWsChar s).reverse
    pyWsChar).subset h
  rw [List.mem_reverse] at h2
  exact (@List.dropWhile_sublist _ s pyWsChar).subset h2

/-- The first fence after a backtick-free prefix starts right after it. -/
theorem findTriple_prefix_free (pre rest : Str) (h : ∀ c ∈ pre, c ≠ btChar) :
    findTripleIdx (pre ++ btChar :: btChar :: btChar :: rest) = some pre.length := by
  induction pre with
  | nil =>
      show findTripleIdx (btChar :: btChar :: btChar :: rest) = some 0
      unfold findTripleIdx
      rw [if_pos ⟨rfl, rfl⟩]
  | cons c pre ih =>
      show findTripleIdx (c :: (pre ++ btChar :: btChar :: btChar :: rest))
        = some (pre.length + 1)
      unfold findTripleIdx
      rw [if_neg (fun hcontra => h c (by simp) hcontra.1)]
      rw [ih (fun x hx => h x (by simp [hx]))]
      rfl

/-- The whole `parse_json_response` preprocessing is transparent to a
`json`-tagged fence around a backtick-free body: stripping, fence extraction
and trailing-comma removal reach the same text as for the bare body. -/
theorem preprocess_fenced (body : Str) (hb : ∀ c ∈ body, c ≠ btChar) :
    preprocess ("```json\n".data ++ body ++ "\n```".data) = preprocess body := by
  have h1 : List.dropWhile pyWsChar ("```json\n".data ++ body ++ "\n```".data)
      = "```json\n".data ++ body ++ "\n```".data := by
    show List.dropWhile pyWsChar
        (btChar :: ("``json\n".data ++ body ++ "\n```".data)) = _
    rw [List.dropWhile_cons, if_neg (by decide)]
    rfl
  have hrev : ("```json\n".data ++ body ++ "\n```".data).reverse
      = btChar :: (([btChar, btChar, '\n'] : Str)
          ++ ("```json\n".data ++ body).reverse) := by
    rw [List.reverse_append]
    rfl
  have h2 : List.dropWhile pyWsChar ("```json\n".data ++ body ++ "\n```".data).reverse
      = ("```json\n".data ++ body ++ "\n```".data).reverse := by
    rw [hrev, List.dropWhile_cons, if_neg (by decide)]
  have hstrip := pyStrip_eq_self _ h1 h2
  have hf : fenceInner ("```json\n".data ++ body ++ "\n```".data)
      = some ('\n' :: (body ++ ['\n'])) := by
    unfold fenceInner
    dsimp only
    rw [if_pos (show pyLower ((("```json\n".data ++ body ++ "\n```".data).drop 3).take 4)
      = "json".data from rfl)]
    have hsplit : (("```json\n".data ++ body ++ "\n```".data).drop 3).drop 4
        = ('\n' :: (body ++ ['\n'])) ++ btChar :: btChar :: btChar :: [] := by
      show '\n' :: (body ++ "\n```".data) = _
      rw [List.cons_append, List.append_assoc]
      rfl
    rw [hsplit]
    rw [findTriple_prefix_free ('\n' :: (body ++ ['\n'])) []
      (by
        intro x hx
        rcases List.mem_cons.mp hx with rfl | hx2
        · decide
        · rcases List.mem_append.mp hx2 with hx3 | hx3
          · exact hb x hx3
          · rcases List.mem_singleton.mp hx3 with rfl
            decide)]
    dsimp only
    rw [List.take_left]
  have hneg : ¬ ((pyStrip body).take 3 = [btChar, btChar, btChar]) := by
    intro hcontra
    have hmem : btChar ∈ (pyStrip body).take 3 := by rw [hcontra]; simp
    exact hb btChar (mem_of_mem_pyStrip (List.take_subset 3 (pyStrip body) hmem)) rfl
  unfold preprocess
  dsimp only
  rw [hstrip]
  rw [if_pos (show ("```json\n".data ++ body ++ "\n```".data).take 3
    = [btChar, btChar, btChar] from rfl)]
  rw [hf]
  dsimp only
  rw [pyStrip_cons_ws '\n' _ (by decide), pyStrip_append_ws body '\n' (by decide)]
  rw [if_neg hneg]

/-! ### Claims about the response parser -/

/-- C3: preprocessing is transparent to a triple-backtick fence tagged `json`
around any backtick-free body — the fence is stripped, then trailing commas
are removed as for the bare body — and in particular the spec's example input
(a fenced object with a trailing comma before `}`) parses to verdict `"yes"`
and years_required `"2"`. -/
theorem fenced_block_with_trailing_commas_parses :
    (∀ body : Str, (∀ c ∈ body, c ≠ btChar) →
      parse_json_response ("```json\n".data ++ body ++ "\n```".data)
        = parse_json_response body)
    ∧ parse_json_response
        "```json\n\x7b\"verdict\":\"yes\",\"years_required\":\"2\",\x7d\n```".data
      = .ok ("yes".data, [], "2".data) := by
  constructor
  · intro body hb
    unfold parse_json_response
    rw [preprocess_fenced body hb]
  · rfl

/-- Witness for C3's universally quantified part at a concrete body. -/
theorem fenced_block_with_trailing_commas_parses_witness :
    parse_json_response ("```json\n".data
        ++ "\x7b\"verdict\":\"maybe\",\"years_required\":\"4\",\x7d".data
        ++ "\n```".data)
      = parse_json_response "\x7b\"verdict\":\"maybe\",\"years_required\":\"4\",\x7d".data :=
  (fenced_block_with_trailing_commas_parses).1
    "\x7b\"verdict\":\"maybe\",\"years_required\":\"4\",\x7d".data (by decide)

/-- C4: the verdict is normalized by `str(...).lower().strip()`; a normalized
verdict outside `{yes, no, maybe, maybe+}` makes the parser fail with the
`ValueError` naming the offending value (the model of `InvalidVerdictError`),
while an allowed normalized verdict is returned together with the stripped
`years_required`; in particular `{"verdict":"unsure","years_required":"2"}`
fails naming `unsure`. -/
theorem invalid_verdict_rejected :
    (∀ (s : Str) (kvs : JsonMembers),
      jsonLoads (preprocess s) = some (.obj kvs) →
      (pyStrip (pyLower (pyStr (dictGet kvs "verdict".data (.str [])))) ∉ allowedVerdicts →
        parse_json_response s = .error (.valueError ("Invalid verdict: ".data
          ++ pyStrip (pyLower (pyStr (dictGet kvs "verdict".data (.str [])))))))
      ∧ (pyStrip (pyLower (pyStr (dictGet kvs "verdict".data (.str [])))) ∈ allowedVerdicts →
        parse_json_response s
          = .ok (pyStrip (pyLower (pyStr (dictGet kvs "verdict".data (.str [])))), [],
              pyStrip (pyStr (dictGet kvs "years_required".data (.str "unspecified".data))))))
    ∧ parse_json_response "\x7b\"verdict\":\"unsure\",\"years_required\":\"2\"\x7d".data
        = .error (.valueError ("Invalid verdict: unsure".data)) := by
  constructor
  · intro s kvs hload
    unfold parse_json_response
    rw [hload]
    unfold interpretParsed
    dsimp only
    constructor
    · intro hnot
      rw [if_neg hnot]
    · intro hin
      rw [if_pos hin]
  · rfl

/-- Witness for C4's universally quantified part, at the spec's `unsure`
example. -/
theorem invalid_verdict_rejected_witness :
    parse_json_response "\x7b\"verdict\":\"unsure\",\"years_required\":\"2\"\x7d".data
      = .error (.valueError ("Invalid verdict: ".data
          ++ pyStrip (pyLower (pyStr (dictGet
              (.cons "verdict".data (.str "unsure".data)
                (.cons "years_required".data (.str "2".data) .nil))
              "verdict".data (.str [])))))) :=
  ((invalid_verdict_rejected).1
    "\x7b\"verdict\":\"unsure\",\"years_required\":\"2\"\x7d".data
    (.cons "verdict".data (.str "unsure".data)
      (.cons "years_required".data (.str "2".data) .nil)) rfl).1 (by decide)

/-- C2 counterexample: the input `{"verdict":"yes"}`, which is missing the
required key `years_required`, does not fail — the parser silently substitutes
the default `"unspecified"` (from `parsed.get("years_required",
"unspecified")`, jobs.py line 164) and succeeds. -/
theorem missing_years_required_defaults_counterexample :
    parse_json_response "\x7b\"verdict\":\"yes\"\x7d".data
      = .ok ("yes".data, [], "unspecified".data) := rfl

/-- C2 amended: a parsed object with no `verdict` key fails — the missing key
defaults to `""`, which the verdict whitelist then rejects with the
invalid-verdict `ValueError` naming the empty string (not a dedicated
missing-key `ResponseFormatError`) — but a missing `years_required` does not
fail: it is silently defaulted to `"unspecified"` and, with a valid verdict,
the parse succeeds. -/
theorem missing_required_keys_behavior :
    (∀ (s : Str) (kvs : JsonMembers),
      jsonLoads (preprocess s) = some (.obj kvs) →
      dictFind kvs "verdict".data = none →
      parse_json_response s = .error (.valueError ("Invalid verdict: ".data)))
    ∧ (∀ (s : Str) (kvs : JsonMembers) (v : Str),
      jsonLoads (preprocess s) = some (.obj kvs) →
      dictFind kvs "years_required".data = none →
      dictFind kvs "verdict".data = some (.str v) →
      pyStrip (pyLower v) ∈ allowedVerdicts →
      parse_json_response s = .ok (pyStrip (pyLower v), [], "unspecified".data)) := by
  constructor
  · intro s kvs hload hfind
    unfold parse_json_response
    rw [hload]
    unfold interpretParsed
    dsimp only
    simp only [dictGet, hfind, Option.getD]
    rw [if_neg (by decide)]
    rfl
  · intro s kvs v hload hyears hverdict hin
    unfold parse_json_response
    rw [hload]
    unfold interpretParsed
    dsimp only
    simp only [dictGet, hyears, hverdict, Option.getD, pyStr]
    rw [if_pos hin]
    rfl

/-- Witness for C2's amended claim: a missing verdict fails with the empty
invalid-verdict error; a missing `years_required` with verdict `"YES "`
normalizes and succeeds with the default. -/
theorem missing_required_keys_behavior_witness :
    parse_json_response "\x7b\"years_required\":\"2\"\x7d".data
        = .error (.valueError ("Invalid verdict: ".data))
    ∧ parse_json_response "\x7b\"verdict\":\"YES \"\x7d".data
        = .ok (pyStrip (pyLower "YES ".data), [], "unspecified".data) :=
  ⟨(missing_required_keys_behavior).1 "\x7b\"years_required\":\"2\"\x7d".data
      (.cons "years_required".data (.str "2".data) .nil) rfl rfl,
   (missing_required_keys_behavior).2 "\x7b\"verdict\":\"YES \"\x7d".data
      (.cons "verdict".data (.str "YES ".data) .nil) "YES ".data rfl rfl rfl
      (by decide)⟩

/-! ### Result-store lemmas -/

/-- A string is its list of characters. -/
theorem string_mk_append (a b : List Char) :
    (⟨a⟩ : String) ++ (⟨b⟩ : String) = ⟨a ++ b⟩ := rfl

/-- `splitext` splits the path: base and extension concatenate back to it. -/
theorem splitext_concat (p : String) : (splitext p).1 ++ (splitext p).2 = p := by
  unfold splitext
  cases hdot : rfindIdx p.data '.' with
  | none => simp
  | some dotIndex =>
      dsimp only
      split
      · split
        · rw [string_mk_append, List.take_append_drop]
        · simp
      · simp

/-- The fallback path is strictly longer than the primary path. -/
theorem fallbackPath_length (path today : String) :
    (fallbackPath path today).length = path.length + 1 + today.length := by
  have h := congrArg String.length (splitext_concat path)
  rw [String.length_append] at h
  unfold fallbackPath
  simp only [String.length_append]
  rw [show ("_" : String).length = 1 from rfl]
  omega

/-- Hence the fallback path never coincides with the primary path. -/
theorem fallbackPath_ne (path today : String) : fallbackPath path today ≠ path := by
  intro h
  have := congrArg String.length h
  rw [fallbackPath_length] at this
  omega

/-! ### Claim about the result store -/

/-- C6: `write_excel_safely` writes the full table to the primary path and
returns it when the destination is not locked; when the primary destination is
locked (the write raises `PermissionError`) and the fallback is not, it writes
the full table to the fallback path — the primary's base name, an underscore,
today's date, then the extension — returns that path, and the primary path's
previous contents are untouched. -/
theorem write_excel_safely_spec (locked : String → Bool) (today : String)
    (df : List Row) (fs : FileSys) (path : String) :
    (locked path = false →
      write_excel_safely locked today df fs path = .ok (fsWrite fs path df, path))
    ∧ (locked path = true → locked (fallbackPath path today) = false →
        write_excel_safely locked today df fs path
            = .ok (fsWrite fs (fallbackPath path today) df, fallbackPath path today)
          ∧ fsWrite fs (fallbackPath path today) df path = fs path) := by
  constructor
  · intro h
    unfold write_excel_safely
    rw [h]
    rfl
  · intro h hfb
    constructor
    · unfold write_excel_safely
      rw [h]
      simp only [Bool.true_eq_false]  -- reduce the outer if
      rw [hfb]
      rfl
    · unfold fsWrite
      rw [if_neg]
      exact fun hpq => fallbackPath_ne path today hpq.symm

/-- Witness for C6: only `jobs.xlsx` is locked; an unlocked path is written in
place, while `jobs.xlsx` is diverted to the dated fallback and its prior
contents survive. -/
theorem write_excel_safely_spec_witness :
    write_excel_safely lockedJobs "2026-10-12" [sampleRow] fsEmpty "other.xlsx"
        = .ok (fsWrite fsEmpty "other.xlsx" [sampleRow], "other.xlsx")
    ∧ write_excel_safely lockedJobs "2026-10-12" [sampleRow] fsEmpty "jobs.xlsx"
        = .ok (fsWrite fsEmpty (fallbackPath "jobs.xlsx" "2026-10-12") [sampleRow],
            fallbackPath "jobs.xlsx" "2026-10-12")
    ∧ fsWrite fsEmpty (fallbackPath "jobs.xlsx" "2026-10-12") [sampleRow] "jobs.xlsx"
        = fsEmpty "jobs.xlsx" :=
  ⟨(write_excel_safely_spec lockedJobs "2026-10-12" [sampleRow] fsEmpty
      "other.xlsx").1 (by decide),
   ((write_excel_safely_spec lockedJobs "2026-10-12" [sampleRow] fsEmpty
      "jobs.xlsx").2 (by decide) (by decide)).1,
   ((write_excel_safely_spec lockedJobs "2026-10-12" [sampleRow] fsEmpty
      "jobs.xlsx").2 (by decide) (by decide)).2⟩

end JobScraper
